import Mathlib

/-!
Verification of the room-synchronization engine of a collaborative
code editor. The server keeps an in-memory registry mapping room ids to
rooms; a room holds the shared document (room.code) and a client map
from websocket to user record. The four message handlers (handleJoin,
handleCodeChange, handleCursorMove, handleLeave) and the broadcast
helper are embedded below, together with the per-connection dispatch
loop (currentRoom tracking, close handling). Websocket handles are
modelled as natural numbers, the outputs of the random generators as
explicit streams carried in the state, and the send calls as an
append-only log.
-/

set_option maxHeartbeats 1000000

namespace Collab

/-- A cursor position object as carried by cursor-move messages. -/
structure Cursor where
  lineNumber : Int
  column : Int
deriving DecidableEq

/-- The JavaScript value held in the cursor field of a user record:
the undefined value, the null value, or a position object. -/
inductive CursorVal where
  | undef : CursorVal
  | null : CursorVal
  | pos : Cursor → CursorVal
deriving DecidableEq

/-- The user record stored in room.clients for one websocket, with
fields id, name, color, cursor in creation order. -/
structure UserData where
  id : String
  name : String
  color : String
  cursor : CursorVal
deriving DecidableEq

/-- A room of the registry: the shared document (room.code) and the
client map from websocket to user record in insertion order. The
document is optional because a code-change whose code field is absent
stores the undefined value. -/
structure Room where
  code : Option String
  clients : List (Nat × UserData)
deriving DecidableEq

/-- Outbound envelopes produced by the server. -/
inductive OutMsg where
  | init : Option String → String → List UserData → OutMsg
  | codeUpdate : Option String → OutMsg
  | userJoined : List UserData → OutMsg
  | userLeft : Option String → List UserData → OutMsg
  | cursorUpdate : String → CursorVal → OutMsg
deriving DecidableEq

/-- The whole server state: the room registry (a JavaScript Map in
insertion order), the log of performed send calls, and the pending
outputs of the two random generators (user ids and colors) with the
number of draws already consumed. -/
structure ServerState where
  rooms : List (Option String × Room)
  sent : List (Nat × OutMsg)
  idStream : Nat → String
  idCount : Nat
  colorStream : Nat → Nat
  colorCount : Nat

/-- Lookup in a JavaScript Map represented as an association list. -/
def lookupA {κ α : Type} [DecidableEq κ] : List (κ × α) → κ → Option α
  | [], _ => none
  | (k, v) :: rest, k0 => if k = k0 then some v else lookupA rest k0

/-- Map.has. -/
def hasKeyA {κ α : Type} [DecidableEq κ] (l : List (κ × α)) (k : κ) : Bool :=
  (lookupA l k).isSome

/-- Map.set: replaces in place when the key is present, appends
otherwise. -/
def setA {κ α : Type} [DecidableEq κ] : List (κ × α) → κ → α → List (κ × α)
  | [], k0, v0 => [(k0, v0)]
  | (k, v) :: rest, k0, v0 =>
    if k = k0 then (k0, v0) :: rest else (k, v) :: setA rest k0 v0

/-- Map.delete: removes the entry with the given key. -/
def eraseA {κ α : Type} [DecidableEq κ] : List (κ × α) → κ → List (κ × α)
  | [], _ => []
  | (k, v) :: rest, k0 => if k = k0 then rest else (k, v) :: eraseA rest k0

/-- JavaScript truthiness test on an optional string: the undefined
value and the empty string are falsy. -/
def falsyS : Option String → Bool
  | none => true
  | some s => s == ""

/-- String splice of the room id into the welcome snippet: the
undefined value prints as the word undefined. -/
def jsStr : Option String → String
  | none => "undefined"
  | some s => s

/-- The welcome document a fresh room is created with. -/
def welcomeCode (roomId : Option String) : String :=
  "// Welcome to collaborative editing!\nconsole.log(\"Hello from room: "
    ++ jsStr roomId ++ "\");"

/-- Base-16 rendering used for the generated color suffix. -/
def hexStr (n : Nat) : String :=
  String.mk (Nat.toDigits 16 n)

/-- The sends performed by one broadcast call over a client map: one
per client that is not the excluded websocket and whose transport is
open, in insertion order. -/
def sendList (clients : List (Nat × UserData)) (wsOpen : Nat → Bool)
    (exclude : Option Nat) (msg : OutMsg) : List (Nat × OutMsg) :=
  (clients.filter (fun p => decide (some p.1 ≠ exclude) && wsOpen p.1)).map
    (fun p => (p.1, msg))

/-- broadcast(roomId, message, excludeClient): appends one send per
client of the room whose websocket is not the excluded one and whose
transport is open, in client-map insertion order; does nothing when the
room id is absent from the registry. -/
def broadcastSend (st : ServerState) (wsOpen : Nat → Bool) (roomId : Option String)
    (msg : OutMsg) (exclude : Option Nat) : ServerState :=
  match lookupA st.rooms roomId with
  | none => st
  | some room =>
    { st with sent := st.sent ++ sendList room.clients wsOpen exclude msg }

/-- handleJoin(ws, roomId, userName, userColor): creates the room when
absent, draws a fresh user id, inserts the user record with defaulted
name and color and a null cursor, sends init to the joining websocket
and broadcasts user-joined to the others. -/
def handleJoin (st : ServerState) (wsOpen : Nat → Bool) (ws : Nat)
    (roomId userName userColor : Option String) : ServerState :=
  let freshRoom : Room := { code := some (welcomeCode roomId), clients := [] }
  let st1 := if hasKeyA st.rooms roomId then st
    else { st with rooms := setA st.rooms roomId freshRoom }
  let room := (lookupA st1.rooms roomId).getD { code := none, clients := [] }
  let userId := st1.idStream st1.idCount
  let st2 := { st1 with idCount := st1.idCount + 1 }
  let name := if falsyS userName then ("Anonymous") else userName.getD ("")
  let color := if falsyS userColor
    then ("#") ++ hexStr (st2.colorStream st2.colorCount)
    else userColor.getD ("")
  let cc2 := if falsyS userColor then st2.colorCount + 1 else st2.colorCount
  let st3 := { st2 with colorCount := cc2 }
  let u : UserData := { id := userId, name := name, color := color, cursor := CursorVal.null }
  let room2 : Room := { room with clients := setA room.clients ws u }
  let st4 := { st3 with rooms := setA st3.rooms roomId room2 }
  let initMsg := OutMsg.init room2.code userId (room2.clients.map Prod.snd)
  let st5 := { st4 with sent := st4.sent ++ [(ws, initMsg)] }
  broadcastSend st5 wsOpen roomId (OutMsg.userJoined (room2.clients.map Prod.snd)) (some ws)

/-- handleCodeChange(ws, roomId, code): returns unchanged when the room
id is falsy or absent; otherwise overwrites the document of the room
and broadcasts code-update to every other open client. -/
def handleCodeChange (st : ServerState) (wsOpen : Nat → Bool) (ws : Nat)
    (roomId : Option String) (code : Option String) : ServerState :=
  if falsyS roomId || !hasKeyA st.rooms roomId then st
  else
    let room := (lookupA st.rooms roomId).getD { code := none, clients := [] }
    let st1 := { st with rooms := setA st.rooms roomId { room with code := code } }
    broadcastSend st1 wsOpen roomId (OutMsg.codeUpdate code) (some ws)

/-- handleCursorMove(ws, roomId, cursor): returns unchanged when the
room id is falsy or absent or the websocket has no record in the room;
otherwise stores the cursor on the record of the sender and broadcasts
cursor-update to every other open client. -/
def handleCursorMove (st : ServerState) (wsOpen : Nat → Bool) (ws : Nat)
    (roomId : Option String) (cur : CursorVal) : ServerState :=
  if falsyS roomId || !hasKeyA st.rooms roomId then st
  else
    let room := (lookupA st.rooms roomId).getD { code := none, clients := [] }
    match lookupA room.clients ws with
    | none => st
    | some u =>
      let room2 : Room := { room with clients := setA room.clients ws { u with cursor := cur } }
      let st1 := { st with rooms := setA st.rooms roomId room2 }
      broadcastSend st1 wsOpen roomId (OutMsg.cursorUpdate u.id cur) (some ws)

/-- handleLeave(ws, roomId): returns unchanged when the room id is
falsy or absent; otherwise removes the record of the websocket, then
deletes the room when it became empty and otherwise broadcasts
user-left (with no excluded client) carrying the id of the departed
record, undefined when the websocket had none. -/
def handleLeave (st : ServerState) (wsOpen : Nat → Bool) (ws : Nat)
    (roomId : Option String) : ServerState :=
  if falsyS roomId || !hasKeyA st.rooms roomId then st
  else
    let room := (lookupA st.rooms roomId).getD { code := none, clients := [] }
    let userId := (lookupA room.clients ws).map (fun u => u.id)
    let clients2 := eraseA room.clients ws
    if clients2.length = 0 then { st with rooms := eraseA st.rooms roomId }
    else
      let st1 := { st with rooms := setA st.rooms roomId { room with clients := clients2 } }
      broadcastSend st1 wsOpen roomId
        (OutMsg.userLeft userId (clients2.map Prod.snd)) none

/-- The server state at process start: empty registry, no sends, the
given generator streams with no draws consumed. -/
def initState (idS : Nat → String) (cS : Nat → Nat) : ServerState :=
  { rooms := [], sent := [], idStream := idS, idCount := 0, colorStream := cS, colorCount := 0 }

/-- A concrete transport condition: every websocket open. -/
def allOpen : Nat → Bool := fun _ => true

/-- A concrete start state whose id generator always yields the same
string. -/
def sampleInit : ServerState := initState (fun _ => ("u1")) (fun _ => 0)

/-- A concrete start state whose first two id draws differ. -/
def sampleInitAB : ServerState :=
  initState (fun n => if n = 0 then ("a") else ("b")) (fun _ => 0)

/-- A concrete state with one room holding websockets 1 and 2. -/
def sampleTwo : ServerState :=
  handleJoin (handleJoin sampleInit allOpen 1 (some ("r")) none none)
    allOpen 2 (some ("r")) none none

/-- Registry-level reachability: every state produced from a start
state by any sequence of the four handler operations, with arbitrary
arguments and arbitrary transport conditions at each step. -/
inductive ReachS : ServerState → Prop where
  | start (idS : Nat → String) (cS : Nat → Nat) : ReachS (initState idS cS)
  | join {s : ServerState} (op : Nat → Bool) (ws : Nat) (r un uc : Option String) :
      ReachS s → ReachS (handleJoin s op ws r un uc)
  | edit {s : ServerState} (op : Nat → Bool) (ws : Nat) (r c : Option String) :
      ReachS s → ReachS (handleCodeChange s op ws r c)
  | cursor {s : ServerState} (op : Nat → Bool) (ws : Nat) (r : Option String) (c : CursorVal) :
      ReachS s → ReachS (handleCursorMove s op ws r c)
  | leave {s : ServerState} (op : Nat → Bool) (ws : Nat) (r : Option String) :
      ReachS s → ReachS (handleLeave s op ws r)

/-- The whole process state: the server state plus, for every live
connection, the currentRoom variable of its message loop, and a counter
supplying fresh websocket handles. -/
structure World where
  server : ServerState
  conns : List (Nat × Option String)
  nextWs : Nat

/-- One externally triggered event of the process: a new connection, an
inbound frame on a live connection (a decoded envelope of one of the
four known kinds, a frame that fails JSON decoding, or an envelope of
unknown kind), or a transport close. -/
inductive Act where
  | connect : Act
  | msgJoin : Nat → Option String → Option String → Option String → Act
  | msgCode : Nat → Option String → Act
  | msgCursor : Nat → CursorVal → Act
  | msgLeave : Nat → Act
  | malformedFrame : Nat → Act
  | unknownKind : Nat → Act
  | disconnect : Nat → Act

/-- The dispatch loop: connection events update the connection table;
inbound envelopes on a live connection run the matching handler, with
the stored currentRoom supplied to the code-change, cursor-move and
leave handlers; join stores its room id as the new currentRoom and
leave clears it; frames failing JSON decoding and unknown kinds are
swallowed by the catch block and the switch default; close runs the
leave handler when currentRoom is truthy and discards the connection. -/
def stepWorld (w : World) (wsOpen : Nat → Bool) : Act → World
  | Act.connect =>
    { w with conns := w.conns ++ [(w.nextWs, none)], nextWs := w.nextWs + 1 }
  | Act.msgJoin ws roomId un uc =>
    if hasKeyA w.conns ws then
      { w with server := handleJoin w.server wsOpen ws roomId un uc,
               conns := setA w.conns ws roomId }
    else w
  | Act.msgCode ws code =>
    match lookupA w.conns ws with
    | some cur => { w with server := handleCodeChange w.server wsOpen ws cur code }
    | none => w
  | Act.msgCursor ws c =>
    match lookupA w.conns ws with
    | some cur => { w with server := handleCursorMove w.server wsOpen ws cur c }
    | none => w
  | Act.msgLeave ws =>
    match lookupA w.conns ws with
    | some cur =>
      { w with server := handleLeave w.server wsOpen ws cur,
               conns := setA w.conns ws none }
    | none => w
  | Act.malformedFrame _ => w
  | Act.unknownKind _ => w
  | Act.disconnect ws =>
    match lookupA w.conns ws with
    | some cur =>
      { w with server := if falsyS cur then w.server else handleLeave w.server wsOpen ws cur,
               conns := eraseA w.conns ws }
    | none => w

/-- The process state at start: no rooms, no connections. -/
def initWorld (idS : Nat → String) (cS : Nat → Nat) : World :=
  { server := initState idS cS, conns := [], nextWs := 0 }

/-- Process-level reachability: every state produced from a start state
by any sequence of events, under arbitrary transport conditions at each
step. -/
inductive ReachW : World → Prop where
  | start (idS : Nat → String) (cS : Nat → Nat) : ReachW (initWorld idS cS)
  | step {w : World} (wsOpen : Nat → Bool) (a : Act) :
      ReachW w → ReachW (stepWorld w wsOpen a)

/-- The user record handleJoin builds: the next id draw, the name
defaulted to Anonymous when falsy, the color defaulted to a hash
prefixed hex draw when falsy, and a null cursor. -/
def newUser (st : ServerState) (un uc : Option String) : UserData :=
  { id := st.idStream st.idCount
    name := if falsyS un then ("Anonymous") else un.getD ("")
    color := if falsyS uc then ("#") ++ hexStr (st.colorStream st.colorCount) else uc.getD ("")
    cursor := CursorVal.null }

/-- The room handleJoin finds after the create-if-absent step: the
stored room when present, a fresh welcome room otherwise. -/
def baseRoom (st : ServerState) (r : Option String) : Room :=
  match lookupA st.rooms r with
  | some rm => rm
  | none => { code := some (welcomeCode r), clients := [] }

/-- The room as handleJoin leaves it: same document, the client map
with the record of the joining websocket inserted. -/
def joinedRoom (st : ServerState) (ws : Nat) (r un uc : Option String) : Room :=
  { code := (baseRoom st r).code
    clients := setA (baseRoom st r).clients ws (newUser st un uc) }

/-- Explicit description of the full state handleJoin produces. -/
def joinTarget (st : ServerState) (op : Nat → Bool) (ws : Nat)
    (r un uc : Option String) : ServerState :=
  let jr := joinedRoom st ws r un uc
  let rooms1 := if hasKeyA st.rooms r then st.rooms
    else setA st.rooms r { code := some (welcomeCode r), clients := [] }
  { rooms := setA rooms1 r jr
    sent := st.sent
      ++ [(ws, OutMsg.init jr.code (newUser st un uc).id (jr.clients.map Prod.snd))]
      ++ sendList jr.clients op (some ws) (OutMsg.userJoined (jr.clients.map Prod.snd))
    idStream := st.idStream
    idCount := st.idCount + 1
    colorStream := st.colorStream
    colorCount := if falsyS uc then st.colorCount + 1 else st.colorCount }

/-- The property names produced when one user record is serialized:
JSON.stringify keeps the creation order id, name, color, cursor, and
drops a property holding the undefined value. -/
def userKeys (u : UserData) : List String :=
  ["id", "name", "color"] ++ (match u.cursor with
    | CursorVal.undef => []
    | _ => ["cursor"])

/-- The users array carried by an outbound envelope, when it has one. -/
def outUsers : OutMsg → Option (List UserData)
  | OutMsg.init _ _ us => some us
  | OutMsg.userJoined us => some us
  | OutMsg.userLeft _ us => some us
  | _ => none

/-- The sends newly appended by a handler call, given the state before
the call. -/
def sentNew (stBefore stAfter : ServerState) : List (Nat × OutMsg) :=
  stAfter.sent.drop stBefore.sent.length

/-- The notification kinds a join, code-change or cursor-move triggers
at the other participants. -/
def triggeredKind : OutMsg → Bool
  | OutMsg.codeUpdate _ => true
  | OutMsg.userJoined _ => true
  | OutMsg.cursorUpdate _ _ => true
  | _ => false

/-- A concrete process run: one connection that joins room a and then
room b without leaving. -/
def sampleWorld2 : World :=
  stepWorld (stepWorld (stepWorld (initWorld (fun _ => ("u1")) (fun _ => 0)) allOpen
    Act.connect) allOpen (Act.msgJoin 0 (some ("a")) none none)) allOpen
    (Act.msgJoin 0 (some ("b")) none none)

section AListLemmas

variable {κ α : Type} [DecidableEq κ]

theorem lookupA_setA (l : List (κ × α)) (k k' : κ) (v : α) :
    lookupA (setA l k v) k' = if k' = k then some v else lookupA l k' := by
  induction l with
  | nil =>
    by_cases h : k' = k
    · subst h; simp [setA, lookupA]
    · simp [setA, lookupA, h, Ne.symm h]
  | cons p rest ih =>
    obtain ⟨a, b⟩ := p
    by_cases ha : a = k
    · subst ha
      by_cases hk : k' = a
      · subst hk; simp [setA, lookupA]
      · simp [setA, lookupA, hk, Ne.symm hk]
    · have hsetA : setA ((a, b) :: rest) k v = (a, b) :: setA rest k v := by
        simp [setA, ha]
      rw [hsetA]
      by_cases haa : a = k'
      · have hk : ¬ k' = k := fun hh => ha (haa.trans hh)
        simp [lookupA, haa, hk]
      · simp [lookupA, haa, ih]

theorem lookupA_setA_self (l : List (κ × α)) (k : κ) (v : α) :
    lookupA (setA l k v) k = some v := by
  simp [lookupA_setA]

theorem lookupA_setA_ne (l : List (κ × α)) {k k' : κ} (v : α) (h : k' ≠ k) :
    lookupA (setA l k v) k' = lookupA l k' := by
  simp [lookupA_setA, h]

theorem lookupA_eraseA_ne (l : List (κ × α)) {k k' : κ} (h : k' ≠ k) :
    lookupA (eraseA l k) k' = lookupA l k' := by
  induction l with
  | nil => simp [eraseA]
  | cons p rest ih =>
    obtain ⟨a, b⟩ := p
    by_cases ha : a = k
    · subst ha
      have h2 : ¬ a = k' := Ne.symm h
      simp [eraseA, lookupA, h2]
    · simp [eraseA, lookupA, ha, ih]

theorem hasKeyA_false_iff (l : List (κ × α)) (k : κ) :
    hasKeyA l k = false ↔ lookupA l k = none := by
  cases h : lookupA l k <;> simp [hasKeyA, h]

theorem hasKeyA_true_iff (l : List (κ × α)) (k : κ) :
    hasKeyA l k = true ↔ ∃ v, lookupA l k = some v := by
  cases h : lookupA l k <;> simp [hasKeyA, h]

theorem setA_of_not_has {l : List (κ × α)} {k : κ} (h : hasKeyA l k = false) (v : α) :
    setA l k v = l ++ [(k, v)] := by
  induction l with
  | nil => simp [setA]
  | cons p rest ih =>
    obtain ⟨a, b⟩ := p
    rw [hasKeyA_false_iff] at h
    simp only [lookupA] at h
    by_cases ha : a = k
    · simp [ha] at h
    · simp only [ha, if_false] at h
      simp [setA, ha, ih ((hasKeyA_false_iff rest k).mpr h)]

theorem eraseA_of_not_has {l : List (κ × α)} {k : κ} (h : hasKeyA l k = false) :
    eraseA l k = l := by
  induction l with
  | nil => simp [eraseA]
  | cons p rest ih =>
    obtain ⟨a, b⟩ := p
    rw [hasKeyA_false_iff] at h
    simp only [lookupA] at h
    by_cases ha : a = k
    · simp [ha] at h
    · simp only [ha, if_false] at h
      simp [eraseA, ha, ih ((hasKeyA_false_iff rest k).mpr h)]

theorem eraseA_append_of_not_has {l : List (κ × α)} {k : κ} (h : hasKeyA l k = false) (v : α) :
    eraseA (l ++ [(k, v)]) k = l := by
  induction l with
  | nil => simp [eraseA]
  | cons p rest ih =>
    obtain ⟨a, b⟩ := p
    rw [hasKeyA_false_iff] at h
    simp only [lookupA] at h
    by_cases ha : a = k
    · simp [ha] at h
    · simp only [ha, if_false] at h
      simp [eraseA, ha, ih ((hasKeyA_false_iff rest k).mpr h)]

theorem setA_append_of_not_has {l : List (κ × α)} {k : κ} (h : hasKeyA l k = false) (v v' : α) :
    setA (l ++ [(k, v)]) k v' = l ++ [(k, v')] := by
  induction l with
  | nil => simp [setA]
  | cons p rest ih =>
    obtain ⟨a, b⟩ := p
    rw [hasKeyA_false_iff] at h
    simp only [lookupA] at h
    by_cases ha : a = k
    · simp [ha] at h
    · simp only [ha, if_false] at h
      simp [setA, ha, ih ((hasKeyA_false_iff rest k).mpr h)]

theorem lookupA_append_of_not_has {l : List (κ × α)} {k : κ} (h : hasKeyA l k = false) (v : α) :
    lookupA (l ++ [(k, v)]) k = some v := by
  induction l with
  | nil => simp [lookupA]
  | cons p rest ih =>
    obtain ⟨a, b⟩ := p
    rw [hasKeyA_false_iff] at h
    simp only [lookupA] at h
    by_cases ha : a = k
    · simp [ha] at h
    · simp only [ha, if_false] at h
      simp [lookupA, ha, ih ((hasKeyA_false_iff rest k).mpr h)]

theorem setA_ne_nil (l : List (κ × α)) (k : κ) (v : α) : setA l k v ≠ [] := by
  cases l with
  | nil => simp [setA]
  | cons p rest =>
    obtain ⟨a, b⟩ := p
    by_cases ha : a = k <;> simp [setA, ha]

theorem eraseA_sublist (l : List (κ × α)) (k : κ) : List.Sublist (eraseA l k) l := by
  induction l with
  | nil => simp [eraseA]
  | cons p rest ih =>
    obtain ⟨a, b⟩ := p
    by_cases ha : a = k
    · have he : eraseA ((a, b) :: rest) k = rest := by simp [eraseA, ha]
      rw [he]
      exact List.sublist_cons_self (a, b) rest
    · have he : eraseA ((a, b) :: rest) k = (a, b) :: eraseA rest k := by simp [eraseA, ha]
      rw [he]
      exact List.Sublist.cons₂ (a, b) ih

theorem keys_setA_of_has {l : List (κ × α)} {k : κ} (h : hasKeyA l k = true) (v : α) :
    (setA l k v).map Prod.fst = l.map Prod.fst := by
  induction l with
  | nil => simp [hasKeyA, lookupA] at h
  | cons p rest ih =>
    obtain ⟨a, b⟩ := p
    rw [hasKeyA_true_iff] at h
    obtain ⟨w, hw⟩ := h
    simp only [lookupA] at hw
    by_cases ha : a = k
    · subst ha; simp [setA]
    · simp only [ha, if_false] at hw
      have : hasKeyA rest k = true := (hasKeyA_true_iff rest k).mpr ⟨w, hw⟩
      simp [setA, ha, ih this]

theorem not_mem_keys_of_not_has {l : List (κ × α)} {k : κ} (h : hasKeyA l k = false) :
    k ∉ l.map Prod.fst := by
  induction l with
  | nil => simp
  | cons p rest ih =>
    obtain ⟨a, b⟩ := p
    rw [hasKeyA_false_iff] at h
    simp only [lookupA] at h
    by_cases ha : a = k
    · simp [ha] at h
    · simp only [ha, if_false] at h
      have hrest := ih ((hasKeyA_false_iff rest k).mpr h)
      simp only [List.map_cons, List.mem_cons, not_or]
      exact ⟨fun hh => ha hh.symm, hrest⟩

theorem nodup_keys_setA {l : List (κ × α)} (h : (l.map Prod.fst).Nodup) (k : κ) (v : α) :
    ((setA l k v).map Prod.fst).Nodup := by
  by_cases hk : hasKeyA l k
  · rw [keys_setA_of_has hk]; exact h
  · have hk2 : hasKeyA l k = false := by simpa using hk
    rw [setA_of_not_has hk2]
    rw [List.map_append]
    refine List.Nodup.append h (by simp) ?_
    intro x hx hx2
    simp only [List.map_cons, List.map_nil, List.mem_cons, List.not_mem_nil, or_false] at hx2
    subst hx2
    exact not_mem_keys_of_not_has hk2 hx

theorem nodup_keys_eraseA {l : List (κ × α)} (h : (l.map Prod.fst).Nodup) (k : κ) :
    ((eraseA l k).map Prod.fst).Nodup :=
  h.sublist (List.Sublist.map Prod.fst (eraseA_sublist l k))

theorem keys_eraseA_subset (l : List (κ × α)) (k : κ) :
    ∀ x, x ∈ (eraseA l k).map Prod.fst → x ∈ l.map Prod.fst :=
  fun _ hx => (List.Sublist.map Prod.fst (eraseA_sublist l k)).subset hx

theorem lookupA_append (l l2 : List (κ × α)) (k : κ) :
    lookupA (l ++ l2) k = match lookupA l k with
      | some v => some v
      | none => lookupA l2 k := by
  induction l with
  | nil => simp [lookupA]
  | cons p rest ih =>
    obtain ⟨a, b⟩ := p
    by_cases ha : a = k <;> simp [lookupA, ha, ih]

theorem mem_of_lookupA {l : List (κ × α)} {k : κ} {v : α}
    (h : lookupA l k = some v) : (k, v) ∈ l := by
  induction l with
  | nil => simp [lookupA] at h
  | cons p rest ih =>
    obtain ⟨a, b⟩ := p
    by_cases ha : a = k
    · subst ha
      have h2 : some b = some v := by simpa [lookupA] using h
      have h3 : b = v := Option.some.inj h2
      subst h3
      exact List.mem_cons_self _ _
    · have h2 : lookupA rest k = some v := by simpa [lookupA, ha] using h
      exact List.mem_cons_of_mem _ (ih h2)

theorem mem_setA {l : List (κ × α)} {k : κ} {v : α} {p : κ × α}
    (h : p ∈ setA l k v) : p ∈ l ∨ p = (k, v) := by
  induction l with
  | nil =>
    simp only [setA, List.mem_singleton] at h
    exact Or.inr h
  | cons q rest ih =>
    obtain ⟨a, b⟩ := q
    by_cases ha : a = k
    · have hset : setA ((a, b) :: rest) k v = (k, v) :: rest := by simp [setA, ha]
      rw [hset] at h
      rcases List.mem_cons.mp h with h | h
      · exact Or.inr h
      · exact Or.inl (List.mem_cons_of_mem _ h)
    · have hset : setA ((a, b) :: rest) k v = (a, b) :: setA rest k v := by simp [setA, ha]
      rw [hset] at h
      rcases List.mem_cons.mp h with h | h
      · exact Or.inl (by simp [h])
      · rcases ih h with h2 | h2
        · exact Or.inl (List.mem_cons_of_mem _ h2)
        · exact Or.inr h2

theorem hasKeyA_iff_mem_keys (l : List (κ × α)) (k : κ) :
    hasKeyA l k = true ↔ k ∈ l.map Prod.fst := by
  induction l with
  | nil => simp [hasKeyA, lookupA]
  | cons p rest ih =>
    obtain ⟨a, b⟩ := p
    by_cases ha : a = k
    · subst ha; simp [hasKeyA, lookupA]
    · have h1 : hasKeyA ((a, b) :: rest) k = hasKeyA rest k := by
        simp [hasKeyA, lookupA, ha]
      rw [h1, ih]
      simp [List.map_cons, List.mem_cons, Ne.symm ha]

theorem lookupA_eq_none_of_not_mem {l : List (κ × α)} {k : κ}
    (h : k ∉ l.map Prod.fst) : lookupA l k = none := by
  rw [← hasKeyA_false_iff]
  cases hk : hasKeyA l k
  · rfl
  · exact absurd ((hasKeyA_iff_mem_keys l k).mp hk) h

theorem lookupA_eraseA_self_of_nodup {l : List (κ × α)} {k : κ}
    (h : (l.map Prod.fst).Nodup) : lookupA (eraseA l k) k = none := by
  induction l with
  | nil => simp [eraseA, lookupA]
  | cons p rest ih =>
    obtain ⟨a, b⟩ := p
    simp only [List.map_cons, List.nodup_cons] at h
    by_cases ha : a = k
    · subst ha
      have he : eraseA ((a, b) :: rest) a = rest := by simp [eraseA]
      rw [he]
      exact lookupA_eq_none_of_not_mem h.1
    · have he : eraseA ((a, b) :: rest) k = (a, b) :: eraseA rest k := by simp [eraseA, ha]
      rw [he]
      simp [lookupA, ha, ih h.2]

end AListLemmas

theorem sendList_mem {clients : List (Nat × UserData)} {op : Nat → Bool}
    {exclude : Option Nat} {msg m : OutMsg} {s : Nat}
    (h : (s, m) ∈ sendList clients op exclude msg) :
    m = msg ∧ some s ≠ exclude ∧ op s = true ∧ s ∈ clients.map Prod.fst := by
  unfold sendList at h
  obtain ⟨p, hp, he⟩ := List.mem_map.mp h
  obtain ⟨hpc, hcond⟩ := List.mem_filter.mp hp
  simp only [Bool.and_eq_true, decide_eq_true_eq] at hcond
  have hs : p.1 = s ∧ msg = m := by
    constructor
    · exact congrArg Prod.fst he
    · exact congrArg Prod.snd he
  obtain ⟨hs1, hs2⟩ := hs
  subst hs1
  subst hs2
  exact ⟨rfl, hcond.1, hcond.2, List.mem_map.mpr ⟨p, hpc, rfl⟩⟩

theorem sentNew_of_append {st st2 : ServerState} {l : List (Nat × OutMsg)}
    (h : st2.sent = st.sent ++ l) : sentNew st st2 = l := by
  simp [sentNew, h, List.drop_left]

theorem sentNew_self (st : ServerState) : sentNew st st = [] := by
  simp [sentNew, List.drop_length]

theorem handleJoin_eq (st : ServerState) (op : Nat → Bool) (ws : Nat)
    (r un uc : Option String) :
    handleJoin st op ws r un uc = joinTarget st op ws r un uc := by
  unfold handleJoin joinTarget joinedRoom baseRoom newUser
  by_cases h : hasKeyA st.rooms r
  · obtain ⟨rm, hrm⟩ := (hasKeyA_true_iff st.rooms r).mp h
    simp [h, hrm, broadcastSend, lookupA_setA_self]
  · have h0 : hasKeyA st.rooms r = false := by simpa using h
    have hrm : lookupA st.rooms r = none := (hasKeyA_false_iff st.rooms r).mp h0
    simp [h0, hrm, broadcastSend, lookupA_setA_self]

theorem handleCodeChange_eq_no {st : ServerState} {r : Option String}
    (h : falsyS r = true ∨ hasKeyA st.rooms r = false)
    (op : Nat → Bool) (ws : Nat) (c : Option String) :
    handleCodeChange st op ws r c = st := by
  unfold handleCodeChange
  rcases h with h | h <;> simp [h]

theorem handleCodeChange_eq_yes {st : ServerState} {r : Option String} {room0 : Room}
    (hr : falsyS r = false) (hl : lookupA st.rooms r = some room0)
    (op : Nat → Bool) (ws : Nat) (c : Option String) :
    handleCodeChange st op ws r c =
      { st with
          rooms := setA st.rooms r { room0 with code := c }
          sent := st.sent ++ sendList room0.clients op (some ws) (OutMsg.codeUpdate c) } := by
  have hk : hasKeyA st.rooms r = true := (hasKeyA_true_iff st.rooms r).mpr ⟨room0, hl⟩
  unfold handleCodeChange
  simp [hr, hk, hl, broadcastSend, lookupA_setA_self]

theorem handleCursorMove_eq_no {st : ServerState} {r : Option String}
    (h : falsyS r = true ∨ hasKeyA st.rooms r = false)
    (op : Nat → Bool) (ws : Nat) (c : CursorVal) :
    handleCursorMove st op ws r c = st := by
  unfold handleCursorMove
  rcases h with h | h <;> simp [h]

theorem handleCursorMove_eq_nouser {st : ServerState} {r : Option String} {room0 : Room}
    (hr : falsyS r = false) (hl : lookupA st.rooms r = some room0) {ws : Nat}
    (hu : lookupA room0.clients ws = none)
    (op : Nat → Bool) (c : CursorVal) :
    handleCursorMove st op ws r c = st := by
  have hk : hasKeyA st.rooms r = true := (hasKeyA_true_iff st.rooms r).mpr ⟨room0, hl⟩
  unfold handleCursorMove
  simp [hr, hk, hl, hu]

theorem handleCursorMove_eq_yes {st : ServerState} {r : Option String} {room0 : Room}
    {ws : Nat} {u : UserData}
    (hr : falsyS r = false) (hl : lookupA st.rooms r = some room0)
    (hu : lookupA room0.clients ws = some u)
    (op : Nat → Bool) (c : CursorVal) :
    handleCursorMove st op ws r c =
      { st with
          rooms := setA st.rooms r
            { room0 with clients := setA room0.clients ws { u with cursor := c } }
          sent := st.sent ++ sendList (setA room0.clients ws { u with cursor := c })
            op (some ws) (OutMsg.cursorUpdate u.id c) } := by
  have hk : hasKeyA st.rooms r = true := (hasKeyA_true_iff st.rooms r).mpr ⟨room0, hl⟩
  unfold handleCursorMove
  simp [hr, hk, hl, hu, broadcastSend, lookupA_setA_self]

theorem handleLeave_eq_no {st : ServerState} {r : Option String}
    (h : falsyS r = true ∨ hasKeyA st.rooms r = false)
    (op : Nat → Bool) (ws : Nat) :
    handleLeave st op ws r = st := by
  unfold handleLeave
  rcases h with h | h <;> simp [h]

theorem handleLeave_eq_del {st : ServerState} {r : Option String} {room0 : Room} {ws : Nat}
    (hr : falsyS r = false) (hl : lookupA st.rooms r = some room0)
    (he : eraseA room0.clients ws = [])
    (op : Nat → Bool) :
    handleLeave st op ws r = { st with rooms := eraseA st.rooms r } := by
  have hk : hasKeyA st.rooms r = true := (hasKeyA_true_iff st.rooms r).mpr ⟨room0, hl⟩
  unfold handleLeave
  simp [hr, hk, hl, he]

theorem handleLeave_eq_stay {st : ServerState} {r : Option String} {room0 : Room} {ws : Nat}
    (hr : falsyS r = false) (hl : lookupA st.rooms r = some room0)
    (he : eraseA room0.clients ws ≠ [])
    (op : Nat → Bool) :
    handleLeave st op ws r =
      { st with
          rooms := setA st.rooms r { room0 with clients := eraseA room0.clients ws }
          sent := st.sent ++ sendList (eraseA room0.clients ws) op none
            (OutMsg.userLeft ((lookupA room0.clients ws).map (fun u => u.id))
              ((eraseA room0.clients ws).map Prod.snd)) } := by
  have hk : hasKeyA st.rooms r = true := (hasKeyA_true_iff st.rooms r).mpr ⟨room0, hl⟩
  have hlen : ¬ (eraseA room0.clients ws).length = 0 := by
    simpa [List.length_eq_zero] using he
  unfold handleLeave
  simp [hr, hk, hl, hlen, broadcastSend, lookupA_setA_self]

theorem handleJoin_lookup_self (st : ServerState) (op : Nat → Bool) (ws : Nat)
    (r un uc : Option String) :
    lookupA (handleJoin st op ws r un uc).rooms r = some (joinedRoom st ws r un uc) := by
  rw [handleJoin_eq]
  simp [joinTarget, lookupA_setA_self]

theorem handleJoin_lookup_ne (st : ServerState) (op : Nat → Bool) (ws : Nat)
    {r : Option String} (un uc : Option String) {k : Option String} (hk : k ≠ r) :
    lookupA (handleJoin st op ws r un uc).rooms k = lookupA st.rooms k := by
  rw [handleJoin_eq]
  simp only [joinTarget]
  rw [lookupA_setA_ne _ _ hk]
  by_cases h : hasKeyA st.rooms r
  · simp [h]
  · have h0 : hasKeyA st.rooms r = false := by simpa using h
    simp only [h0, Bool.false_eq_true, if_false]
    exact lookupA_setA_ne _ _ hk

theorem handleJoin_sent (st : ServerState) (op : Nat → Bool) (ws : Nat)
    (r un uc : Option String) :
    (handleJoin st op ws r un uc).sent = st.sent
      ++ ([(ws, OutMsg.init (joinedRoom st ws r un uc).code (newUser st un uc).id
            ((joinedRoom st ws r un uc).clients.map Prod.snd))]
        ++ sendList (joinedRoom st ws r un uc).clients op (some ws)
            (OutMsg.userJoined ((joinedRoom st ws r un uc).clients.map Prod.snd))) := by
  rw [handleJoin_eq]
  simp [joinTarget]

theorem handleJoin_sentNew (st : ServerState) (op : Nat → Bool) (ws : Nat)
    (r un uc : Option String) :
    sentNew st (handleJoin st op ws r un uc)
      = [(ws, OutMsg.init (joinedRoom st ws r un uc).code (newUser st un uc).id
            ((joinedRoom st ws r un uc).clients.map Prod.snd))]
        ++ sendList (joinedRoom st ws r un uc).clients op (some ws)
            (OutMsg.userJoined ((joinedRoom st ws r un uc).clients.map Prod.snd)) :=
  sentNew_of_append (handleJoin_sent st op ws r un uc)

theorem handleJoin_idStream (st : ServerState) (op : Nat → Bool) (ws : Nat)
    (r un uc : Option String) :
    (handleJoin st op ws r un uc).idStream = st.idStream := by
  rw [handleJoin_eq]
  simp [joinTarget]

theorem handleJoin_idCount (st : ServerState) (op : Nat → Bool) (ws : Nat)
    (r un uc : Option String) :
    (handleJoin st op ws r un uc).idCount = st.idCount + 1 := by
  rw [handleJoin_eq]
  simp [joinTarget]

theorem joinedRoom_lookup_ws (st : ServerState) (ws : Nat) (r un uc : Option String) :
    lookupA (joinedRoom st ws r un uc).clients ws = some (newUser st un uc) := by
  simp [joinedRoom, lookupA_setA_self]

theorem handleCodeChange_sentNew_yes {st : ServerState} {r : Option String} {room0 : Room}
    (hr : falsyS r = false) (hl : lookupA st.rooms r = some room0)
    (op : Nat → Bool) (ws : Nat) (c : Option String) :
    sentNew st (handleCodeChange st op ws r c)
      = sendList room0.clients op (some ws) (OutMsg.codeUpdate c) := by
  rw [handleCodeChange_eq_yes hr hl]
  exact sentNew_of_append rfl

theorem handleCursorMove_sentNew_yes {st : ServerState} {r : Option String} {room0 : Room}
    {ws : Nat} {u : UserData}
    (hr : falsyS r = false) (hl : lookupA st.rooms r = some room0)
    (hu : lookupA room0.clients ws = some u)
    (op : Nat → Bool) (c : CursorVal) :
    sentNew st (handleCursorMove st op ws r c)
      = sendList (setA room0.clients ws { u with cursor := c }) op (some ws)
          (OutMsg.cursorUpdate u.id c) := by
  rw [handleCursorMove_eq_yes hr hl hu]
  exact sentNew_of_append rfl

/-- Claim C3: last-write-wins. For two code-change operations processed
in order on the same room (present under a non-falsy id, from any two
websockets, members or not), the stored document after the second one
is exactly the content of the second edit. -/
theorem c3_last_write_wins (st : ServerState) (op1 op2 : Nat → Bool) (ws1 ws2 : Nat)
    (r c1 c2 : Option String) (room0 : Room)
    (hr : falsyS r = false) (hl : lookupA st.rooms r = some room0) :
    (lookupA (handleCodeChange (handleCodeChange st op1 ws1 r c1) op2 ws2 r c2).rooms r).map
      (fun rm => rm.code) = some c2 := by
  have h1 := handleCodeChange_eq_yes hr hl op1 ws1 c1
  have hl2 : lookupA (handleCodeChange st op1 ws1 r c1).rooms r
      = some { room0 with code := c1 } := by
    rw [h1]
    exact lookupA_setA_self _ _ _
  rw [handleCodeChange_eq_yes hr hl2 op2 ws2 c2]
  simp [lookupA_setA_self]

/-- Claim C3 witness: a concrete room with two members and two edits;
the document ends as the second content. -/
theorem c3_witness :
    (lookupA (handleCodeChange (handleCodeChange
        (handleJoin (initState (fun _ => ("u1")) (fun _ => 0)) (fun _ => true)
          1 (some ("r")) none none)
        (fun _ => true) 1 (some ("r")) (some ("first")))
        (fun _ => true) 1 (some ("r")) (some ("second"))).rooms (some ("r"))).map
      (fun rm => rm.code) = some (some ("second")) := by
  have h := c3_last_write_wins
    (handleJoin (initState (fun _ => ("u1")) (fun _ => 0)) (fun _ => true)
      1 (some ("r")) none none)
    (fun _ => true) (fun _ => true) 1 1 (some ("r")) (some ("first")) (some ("second"))
    (joinedRoom (initState (fun _ => ("u1")) (fun _ => 0)) 1 (some ("r")) none none)
    (by decide)
    (handleJoin_lookup_self (initState (fun _ => ("u1")) (fun _ => 0)) (fun _ => true)
      1 (some ("r")) none none)
  exact h

/-- Claim C4: broadcast exclusion. Whatever notification of kind
code-update, user-joined or cursor-update a join, code-change or
cursor-move triggers, the websocket that sent the triggering envelope
is never among the receivers, for every starting state, membership
situation and transport condition. -/
theorem c4_broadcast_excludes_sender (st : ServerState) (op : Nat → Bool) (ws s : Nat)
    (r un uc c : Option String) (cur : CursorVal) (m : OutMsg)
    (hmem : (s, m) ∈ sentNew st (handleJoin st op ws r un uc) ∨
            (s, m) ∈ sentNew st (handleCodeChange st op ws r c) ∨
            (s, m) ∈ sentNew st (handleCursorMove st op ws r cur))
    (hkind : triggeredKind m = true) : s ≠ ws := by
  have excl : ∀ {clients : List (Nat × UserData)} {msg : OutMsg},
      (s, m) ∈ sendList clients op (some ws) msg → s ≠ ws := by
    intro clients msg hmem2
    have h2 := (sendList_mem hmem2).2.1
    intro he
    exact h2 (by rw [he])
  rcases hmem with hmem | hmem | hmem
  · rw [handleJoin_sentNew] at hmem
    rcases List.mem_append.mp hmem with hmem | hmem
    · simp only [List.mem_singleton, Prod.mk.injEq] at hmem
      rw [hmem.2] at hkind
      simp [triggeredKind] at hkind
    · exact excl hmem
  · by_cases hfr : falsyS r = true
    · rw [handleCodeChange_eq_no (Or.inl hfr), sentNew_self] at hmem
      simp at hmem
    · by_cases hk : hasKeyA st.rooms r = true
      · obtain ⟨room0, hl⟩ := (hasKeyA_true_iff st.rooms r).mp hk
        have hfr2 : falsyS r = false := by simpa using hfr
        rw [handleCodeChange_sentNew_yes hfr2 hl] at hmem
        exact excl hmem
      · have hk2 : hasKeyA st.rooms r = false := by simpa using hk
        rw [handleCodeChange_eq_no (Or.inr hk2), sentNew_self] at hmem
        simp at hmem
  · by_cases hfr : falsyS r = true
    · rw [handleCursorMove_eq_no (Or.inl hfr), sentNew_self] at hmem
      simp at hmem
    · by_cases hk : hasKeyA st.rooms r = true
      · obtain ⟨room0, hl⟩ := (hasKeyA_true_iff st.rooms r).mp hk
        have hfr2 : falsyS r = false := by simpa using hfr
        cases hu : lookupA room0.clients ws with
        | none =>
          rw [handleCursorMove_eq_nouser hfr2 hl hu, sentNew_self] at hmem
          simp at hmem
        | some u =>
          rw [handleCursorMove_sentNew_yes hfr2 hl hu] at hmem
          exact excl hmem
      · have hk2 : hasKeyA st.rooms r = false := by simpa using hk
        rw [handleCursorMove_eq_no (Or.inr hk2), sentNew_self] at hmem
        simp at hmem

/-- Claim C4 witness: in a concrete two-member room, the code-update
triggered by websocket 0 reaches websocket 1, and the theorem yields
that the receiver is not the sender. -/
theorem c4_witness :
    ((1, OutMsg.codeUpdate (some ("x"))) ∈
      sentNew
        (handleJoin (handleJoin (initState (fun _ => ("u1")) (fun _ => 0)) (fun _ => true)
          1 (some ("r")) none none) (fun _ => true) 0 (some ("r")) none none)
        (handleCodeChange
          (handleJoin (handleJoin (initState (fun _ => ("u1")) (fun _ => 0)) (fun _ => true)
            1 (some ("r")) none none) (fun _ => true) 0 (some ("r")) none none)
          (fun _ => true) 0 (some ("r")) (some ("x")))) ∧ (1 : Nat) ≠ 0 := by
  constructor
  · decide
  · exact c4_broadcast_excludes_sender
      (handleJoin (handleJoin (initState (fun _ => ("u1")) (fun _ => 0)) (fun _ => true)
        1 (some ("r")) none none) (fun _ => true) 0 (some ("r")) none none)
      (fun _ => true) 0 1 (some ("r")) none none (some ("x")) CursorVal.null
      (OutMsg.codeUpdate (some ("x")))
      (Or.inr (Or.inl (by decide))) (by decide)

/-- Claim C10: join defaulting. A join whose userName is falsy stores
the literal name Anonymous, one whose userColor is falsy stores a hash
prefixed generated color; the join always proceeds (the record is
inserted with a null cursor and init is sent to the joiner). -/
theorem c10_join_defaults (st : ServerState) (op : Nat → Bool) (ws : Nat)
    (r un uc : Option String) :
    ∃ room u, lookupA (handleJoin st op ws r un uc).rooms r = some room ∧
      lookupA room.clients ws = some u ∧
      (falsyS un = true → u.name = ("Anonymous")) ∧
      (falsyS uc = true → u.color = ("#") ++ hexStr (st.colorStream st.colorCount)) ∧
      u.cursor = CursorVal.null ∧
      (sentNew st (handleJoin st op ws r un uc)).head?
        = some (ws, OutMsg.init room.code u.id (room.clients.map Prod.snd)) := by
  refine ⟨joinedRoom st ws r un uc, newUser st un uc,
    handleJoin_lookup_self st op ws r un uc, joinedRoom_lookup_ws st ws r un uc,
    ?_, ?_, rfl, ?_⟩
  · intro h
    simp [newUser, h]
  · intro h
    simp [newUser, h]
  · rw [handleJoin_sentNew]
    rfl

/-- Claim C10 witness: a join with no name and no color supplied stores
the name Anonymous, a color prefixed by the hash of the tenth generator
output, and a null cursor. -/
theorem c10_witness :
    (lookupA (handleJoin (initState (fun _ => ("uid")) (fun _ => 10)) allOpen
        0 (some ("r")) none none).rooms (some ("r"))).map
      (fun rm => (lookupA rm.clients 0).map (fun u => (u.name, u.color, u.cursor)))
      = some (some (("Anonymous"), ("#") ++ hexStr 10, CursorVal.null)) := by
  obtain ⟨room, u, h1, h2, h3, h4, h5, _⟩ :=
    c10_join_defaults (initState (fun _ => ("uid")) (fun _ => 10)) allOpen
      0 (some ("r")) none none
  rw [h1]
  simp [h2, h3 rfl, h4 rfl, h5]
  decide

/-- Claim C8 counterexample: with an id generator that yields the same
string twice, two distinct join operations produce two participants
carrying the same id, refuting guaranteed global uniqueness. -/
theorem c8_counterexample :
    (lookupA (handleJoin (handleJoin sampleInit allOpen 1 (some ("r")) none none)
        allOpen 2 (some ("r")) none none).rooms (some ("r"))).map
      (fun rm => rm.clients.map (fun p => p.2.id))
      = some [("u1"), ("u1")] := by decide

/-- Claim C8 (amended): a join assigns as participant id the next
output of the random generator with no uniqueness check, and inserts
the record with a null cursor; the ids of two successive joins are
distinct exactly when the two generator outputs are. -/
theorem c8_id_from_generator (st : ServerState) (op op2 : Nat → Bool) (ws ws2 : Nat)
    (r un uc r2 un2 uc2 : Option String) :
    ∃ room1 u1 room2 u2,
      lookupA (handleJoin st op ws r un uc).rooms r = some room1 ∧
      lookupA room1.clients ws = some u1 ∧
      u1.id = st.idStream st.idCount ∧
      u1.cursor = CursorVal.null ∧
      (handleJoin st op ws r un uc).idStream = st.idStream ∧
      (handleJoin st op ws r un uc).idCount = st.idCount + 1 ∧
      lookupA (handleJoin (handleJoin st op ws r un uc) op2 ws2 r2 un2 uc2).rooms r2
        = some room2 ∧
      lookupA room2.clients ws2 = some u2 ∧
      u2.id = st.idStream (st.idCount + 1) ∧
      (st.idStream st.idCount ≠ st.idStream (st.idCount + 1) → u1.id ≠ u2.id) := by
  have hu2id : (newUser (handleJoin st op ws r un uc) un2 uc2).id
      = st.idStream (st.idCount + 1) := by
    simp [newUser, handleJoin_idStream, handleJoin_idCount]
  refine ⟨joinedRoom st ws r un uc, newUser st un uc,
    joinedRoom (handleJoin st op ws r un uc) ws2 r2 un2 uc2,
    newUser (handleJoin st op ws r un uc) un2 uc2,
    handleJoin_lookup_self st op ws r un uc, joinedRoom_lookup_ws st ws r un uc, rfl, rfl,
    handleJoin_idStream st op ws r un uc, handleJoin_idCount st op ws r un uc,
    handleJoin_lookup_self (handleJoin st op ws r un uc) op2 ws2 r2 un2 uc2,
    joinedRoom_lookup_ws (handleJoin st op ws r un uc) ws2 r2 un2 uc2,
    hu2id, ?_⟩
  intro hne heq
  apply hne
  calc st.idStream st.idCount = (newUser st un uc).id := rfl
    _ = (newUser (handleJoin st op ws r un uc) un2 uc2).id := heq
    _ = st.idStream (st.idCount + 1) := hu2id

/-- Claim C8 witness: with a generator whose first two outputs differ,
the two joined participants carry those two distinct ids. -/
theorem c8_witness :
    ((lookupA (handleJoin sampleInitAB allOpen 1 (some ("r")) none none).rooms
        (some ("r"))).map (fun rm => (lookupA rm.clients 1).map (fun u => u.id))
      = some (some ("a")))
    ∧ ((lookupA (handleJoin (handleJoin sampleInitAB allOpen 1 (some ("r")) none none)
        allOpen 2 (some ("q")) none none).rooms (some ("q"))).map
        (fun rm => (lookupA rm.clients 2).map (fun u => u.id))
      = some (some ("b"))) := by
  obtain ⟨room1, u1, room2, u2, h1, h2, h3, h4, h5, h6, h7, h8, h9, h10⟩ :=
    c8_id_from_generator sampleInitAB allOpen allOpen 1 2
      (some ("r")) none none (some ("q")) none none
  constructor
  · rw [h1]
    simp [h2, h3]
    decide
  · rw [h7]
    simp [h8, h9]
    decide

/-- Claim C7 counterexample: the init envelope produced by a single
join carries a users array whose element serializes with the four
properties id, name, color, cursor (the stored null cursor is kept by
serialization), not with the claimed three-property shape. -/
theorem c7_counterexample :
    ((handleJoin sampleInit allOpen 0 (some ("r")) (some ("Al")) (some ("#f00"))).sent.map
      (fun p => (outUsers p.2).map (fun us => us.map userKeys))
      = [some [["id", "name", "color", "cursor"]]])
    ∧ ["id", "name", "color", "cursor"] ≠ ["id", "name", "color"] := by decide

/-- Claim C7 (amended): every participant element of an outbound users
array serializes with properties id, name, color followed by cursor,
the cursor property being dropped only when the stored cursor is the
undefined value; a freshly joined participant always serializes with
all four properties, its cursor being null. -/
theorem c7_participant_shape (st : ServerState) (op : Nat → Bool) (ws : Nat)
    (r un uc : Option String) (s : Nat) (m : OutMsg) (us : List UserData) (u : UserData)
    (hmem : (s, m) ∈ sentNew st (handleJoin st op ws r un uc) ∨
            (s, m) ∈ sentNew st (handleLeave st op ws r))
    (hus : outUsers m = some us) (hu : u ∈ us) :
    (userKeys u = ["id", "name", "color", "cursor"] ∨
      (u.cursor = CursorVal.undef ∧ userKeys u = ["id", "name", "color"])) ∧
    (∃ room unew, lookupA (handleJoin st op ws r un uc).rooms r = some room ∧
      lookupA room.clients ws = some unew ∧ unew ∈ room.clients.map Prod.snd ∧
      unew.cursor = CursorVal.null ∧
      userKeys unew = ["id", "name", "color", "cursor"]) := by
  constructor
  · cases hc : u.cursor with
    | undef => exact Or.inr ⟨rfl, by simp [userKeys, hc]⟩
    | null => exact Or.inl (by simp [userKeys, hc])
    | pos c => exact Or.inl (by simp [userKeys, hc])
  · refine ⟨joinedRoom st ws r un uc, newUser st un uc,
      handleJoin_lookup_self st op ws r un uc, joinedRoom_lookup_ws st ws r un uc,
      ?_, rfl, rfl⟩
    exact List.mem_map.mpr
      ⟨(ws, newUser st un uc), mem_of_lookupA (joinedRoom_lookup_ws st ws r un uc), rfl⟩

/-- Claim C7 witness: applied to the init envelope of a concrete join,
whose users array holds the record of the joiner. -/
theorem c7_witness :
    (userKeys (newUser sampleInit (some ("Al")) (some ("#f00")))
        = ["id", "name", "color", "cursor"] ∨
      ((newUser sampleInit (some ("Al")) (some ("#f00"))).cursor = CursorVal.undef ∧
        userKeys (newUser sampleInit (some ("Al")) (some ("#f00")))
          = ["id", "name", "color"]))
    ∧ (∃ room unew,
      lookupA (handleJoin sampleInit allOpen 0 (some ("r")) (some ("Al"))
        (some ("#f00"))).rooms (some ("r")) = some room ∧
      lookupA room.clients 0 = some unew ∧ unew ∈ room.clients.map Prod.snd ∧
      unew.cursor = CursorVal.null ∧
      userKeys unew = ["id", "name", "color", "cursor"]) :=
  c7_participant_shape sampleInit allOpen 0 (some ("r")) (some ("Al")) (some ("#f00"))
    0
    (OutMsg.init (joinedRoom sampleInit 0 (some ("r")) (some ("Al")) (some ("#f00"))).code
      (newUser sampleInit (some ("Al")) (some ("#f00"))).id
      ((joinedRoom sampleInit 0 (some ("r")) (some ("Al")) (some ("#f00"))).clients.map
        Prod.snd))
    ((joinedRoom sampleInit 0 (some ("r")) (some ("Al")) (some ("#f00"))).clients.map
      Prod.snd)
    (newUser sampleInit (some ("Al")) (some ("#f00")))
    (Or.inl (by decide)) (by decide) (by decide)

/-- Claim C1 counterexample: two reachable situations refute the stated
no-op condition. A room created under the empty-string id exists in the
registry and the sender is one of its members, yet an inbound
code-change naming it leaves the document unchanged (the falsy room id
guard fires). A room r with sole member websocket 1 receives a
code-change from websocket 0, which is not a member, yet the document
is overwritten and member 1 is notified. -/
theorem c1_counterexample :
    ((lookupA (handleJoin sampleInit allOpen 3 (some ("")) none none).rooms
        (some (""))).map (fun rm => hasKeyA rm.clients 3) = some true)
    ∧ ((lookupA (handleCodeChange (handleJoin sampleInit allOpen 3 (some ("")) none none)
        allOpen 3 (some ("")) (some ("x"))).rooms (some (""))).map (fun rm => rm.code)
        ≠ some (some ("x")))
    ∧ ((lookupA (handleJoin sampleInit allOpen 1 (some ("r")) none none).rooms
        (some ("r"))).map (fun rm => hasKeyA rm.clients 0) = some false)
    ∧ ((lookupA (handleCodeChange (handleJoin sampleInit allOpen 1 (some ("r")) none none)
        allOpen 0 (some ("r")) (some ("x"))).rooms (some ("r"))).map (fun rm => rm.code)
        = some (some ("x")))
    ∧ sentNew (handleJoin sampleInit allOpen 1 (some ("r")) none none)
        (handleCodeChange (handleJoin sampleInit allOpen 1 (some ("r")) none none)
          allOpen 0 (some ("r")) (some ("x")))
        = [(1, OutMsg.codeUpdate (some ("x")))] := by decide

/-- Claim C1 (amended): an inbound code-change is a no-op exactly when
the room id it names is falsy (undefined or empty) or absent from the
registry; otherwise it overwrites the document of that room and
notifies every other open member, whether or not the sender is a member
of the room — membership is never checked. -/
theorem c1_code_change_checks_room_only (st : ServerState) (op : Nat → Bool) (ws : Nat)
    (r c : Option String) :
    ((falsyS r = true ∨ hasKeyA st.rooms r = false) → handleCodeChange st op ws r c = st) ∧
    (∀ room0, falsyS r = false → lookupA st.rooms r = some room0 →
      lookupA (handleCodeChange st op ws r c).rooms r = some { room0 with code := c } ∧
      (∀ k, k ≠ r → lookupA (handleCodeChange st op ws r c).rooms k = lookupA st.rooms k) ∧
      sentNew st (handleCodeChange st op ws r c)
        = sendList room0.clients op (some ws) (OutMsg.codeUpdate c)) := by
  constructor
  · intro h
    exact handleCodeChange_eq_no h op ws c
  · intro room0 hr hl
    refine ⟨?_, ?_, handleCodeChange_sentNew_yes hr hl op ws c⟩
    · rw [handleCodeChange_eq_yes hr hl]
      exact lookupA_setA_self _ _ _
    · intro k hk
      rw [handleCodeChange_eq_yes hr hl]
      exact lookupA_setA_ne _ _ hk

/-- Claim C1 witness: a code-change naming an absent room leaves a
concrete state unchanged; one naming a present room from a non-member
overwrites the document. -/
theorem c1_witness :
    handleCodeChange sampleInit allOpen 0 (some ("nope")) (some ("x")) = sampleInit ∧
    (lookupA (handleCodeChange (handleJoin sampleInit allOpen 1 (some ("r")) none none)
      allOpen 0 (some ("r")) (some ("x"))).rooms (some ("r"))).map (fun rm => rm.code)
      = some (some ("x")) := by
  constructor
  · exact (c1_code_change_checks_room_only sampleInit allOpen 0 (some ("nope"))
      (some ("x"))).1 (Or.inr (by decide))
  · have h := ((c1_code_change_checks_room_only
      (handleJoin sampleInit allOpen 1 (some ("r")) none none) allOpen 0 (some ("r"))
      (some ("x"))).2
      (joinedRoom sampleInit 1 (some ("r")) none none) (by decide)
      (handleJoin_lookup_self sampleInit allOpen 1 (some ("r")) none none)).1
    rw [h]
    rfl

/-- Claim C9: cursor-move frame. For a cursor-move on a stored room
holding a record for the sender, the registry keys, every document of
every room, every client-map membership, and the record of every other
websocket in every room are unchanged, and the record of the sender
keeps its id, name and color. -/
theorem c9_cursor_frame (st : ServerState) (op : Nat → Bool) (ws : Nat)
    (r : Option String) (c : CursorVal) (room0 : Room) (u0 : UserData)
    (hl : lookupA st.rooms r = some room0) (hu : lookupA room0.clients ws = some u0) :
    ((handleCursorMove st op ws r c).rooms.map Prod.fst = st.rooms.map Prod.fst) ∧
    (∀ k, (lookupA (handleCursorMove st op ws r c).rooms k).map (fun rm => rm.code)
        = (lookupA st.rooms k).map (fun rm => rm.code)) ∧
    (∀ k, (lookupA (handleCursorMove st op ws r c).rooms k).map
          (fun rm => rm.clients.map Prod.fst)
        = (lookupA st.rooms k).map (fun rm => rm.clients.map Prod.fst)) ∧
    (∀ k w, w ≠ ws → (lookupA (handleCursorMove st op ws r c).rooms k).map
          (fun rm => lookupA rm.clients w)
        = (lookupA st.rooms k).map (fun rm => lookupA rm.clients w)) ∧
    (∃ room1 u1, lookupA (handleCursorMove st op ws r c).rooms r = some room1 ∧
      lookupA room1.clients ws = some u1 ∧
      u1.id = u0.id ∧ u1.name = u0.name ∧ u1.color = u0.color) := by
  by_cases hfr : falsyS r = true
  · rw [handleCursorMove_eq_no (Or.inl hfr)]
    exact ⟨rfl, fun k => rfl, fun k => rfl, fun k w hw => rfl,
      room0, u0, hl, hu, rfl, rfl, rfl⟩
  · have hr : falsyS r = false := by simpa using hfr
    have hk : hasKeyA st.rooms r = true := (hasKeyA_true_iff st.rooms r).mpr ⟨room0, hl⟩
    have hkc : hasKeyA room0.clients ws = true :=
      (hasKeyA_true_iff room0.clients ws).mpr ⟨u0, hu⟩
    rw [handleCursorMove_eq_yes hr hl hu]
    refine ⟨keys_setA_of_has hk _, ?_, ?_, ?_, ?_⟩
    · intro k
      by_cases hkr : k = r
      · subst hkr
        rw [lookupA_setA_self, hl]
        rfl
      · rw [lookupA_setA_ne _ _ hkr]
    · intro k
      by_cases hkr : k = r
      · subst hkr
        rw [lookupA_setA_self, hl]
        simp [keys_setA_of_has hkc]
      · rw [lookupA_setA_ne _ _ hkr]
    · intro k w hw
      by_cases hkr : k = r
      · subst hkr
        rw [lookupA_setA_self, hl]
        simp [lookupA_setA_ne _ _ hw]
      · rw [lookupA_setA_ne _ _ hkr]
    · exact ⟨{ room0 with clients := setA room0.clients ws { u0 with cursor := c } },
        { u0 with cursor := c }, lookupA_setA_self _ _ _, lookupA_setA_self _ _ _,
        rfl, rfl, rfl⟩

/-- Claim C9 witness: in a concrete room with members 1 and 2, a
cursor-move by 1 leaves the registry keys, the document and the record
of member 2 unchanged. -/
theorem c9_witness :
    ((handleCursorMove sampleTwo allOpen 1 (some ("r"))
        (CursorVal.pos { lineNumber := 1, column := 2 })).rooms.map Prod.fst
      = sampleTwo.rooms.map Prod.fst)
    ∧ ((lookupA (handleCursorMove sampleTwo allOpen 1 (some ("r"))
        (CursorVal.pos { lineNumber := 1, column := 2 })).rooms (some ("r"))).map
          (fun rm => rm.code)
      = (lookupA sampleTwo.rooms (some ("r"))).map (fun rm => rm.code))
    ∧ ((lookupA (handleCursorMove sampleTwo allOpen 1 (some ("r"))
        (CursorVal.pos { lineNumber := 1, column := 2 })).rooms (some ("r"))).map
          (fun rm => lookupA rm.clients 2)
      = (lookupA sampleTwo.rooms (some ("r"))).map (fun rm => lookupA rm.clients 2)) := by
  have h := c9_cursor_frame sampleTwo allOpen 1 (some ("r"))
    (CursorVal.pos { lineNumber := 1, column := 2 })
    (joinedRoom (handleJoin sampleInit allOpen 1 (some ("r")) none none)
      2 (some ("r")) none none)
    (newUser sampleInit none none)
    (handleJoin_lookup_self (handleJoin sampleInit allOpen 1 (some ("r")) none none)
      allOpen 2 (some ("r")) none none)
    (by decide)
  exact ⟨h.1, h.2.1 (some ("r")), h.2.2.2.1 (some ("r")) 2 (by decide)⟩

theorem handleJoin_rooms (st : ServerState) (op : Nat → Bool) (ws : Nat)
    (r un uc : Option String) :
    (handleJoin st op ws r un uc).rooms
      = setA (if hasKeyA st.rooms r then st.rooms
              else setA st.rooms r { code := some (welcomeCode r), clients := [] })
          r (joinedRoom st ws r un uc) := by
  rw [handleJoin_eq]
  simp [joinTarget]

theorem reachS_invariant {s : ServerState} (h : ReachS s) :
    (∀ k rm, lookupA s.rooms k = some rm → rm.clients ≠ []) ∧
      (s.rooms.map Prod.fst).Nodup := by
  induction h with
  | start idS cS =>
    constructor
    · intro k rm hk
      simp [initState, lookupA] at hk
    · simp [initState]
  | @join s op ws r un uc hs ih =>
    constructor
    · intro k rm hk
      by_cases hkr : k = r
      · subst hkr
        rw [handleJoin_lookup_self] at hk
        have hrm : joinedRoom s ws k un uc = rm := Option.some.inj hk
        subst hrm
        exact setA_ne_nil _ _ _
      · rw [handleJoin_lookup_ne s op ws un uc hkr] at hk
        exact ih.1 k rm hk
    · rw [handleJoin_rooms]
      by_cases hhk : hasKeyA s.rooms r = true
      · simp only [hhk, if_true]
        exact nodup_keys_setA ih.2 _ _
      · have hh2 : hasKeyA s.rooms r = false := by simpa using hhk
        simp only [hh2, Bool.false_eq_true, if_false]
        exact nodup_keys_setA (nodup_keys_setA ih.2 _ _) _ _
  | @edit s op ws r c hs ih =>
    by_cases hfr : falsyS r = true
    · rw [handleCodeChange_eq_no (Or.inl hfr)]
      exact ih
    · have hr : falsyS r = false := by simpa using hfr
      by_cases hhk : hasKeyA s.rooms r = true
      · obtain ⟨room0, hl⟩ := (hasKeyA_true_iff s.rooms r).mp hhk
        have hrooms : (handleCodeChange s op ws r c).rooms
            = setA s.rooms r { room0 with code := c } := by
          rw [handleCodeChange_eq_yes hr hl]
        constructor
        · intro k rm hk
          rw [hrooms] at hk
          by_cases hkr : k = r
          · subst hkr
            rw [lookupA_setA_self] at hk
            have hrm : { room0 with code := c } = rm := Option.some.inj hk
            subst hrm
            exact ih.1 k room0 hl
          · rw [lookupA_setA_ne _ _ hkr] at hk
            exact ih.1 k rm hk
        · rw [hrooms]
          exact nodup_keys_setA ih.2 _ _
      · have hh2 : hasKeyA s.rooms r = false := by simpa using hhk
        rw [handleCodeChange_eq_no (Or.inr hh2)]
        exact ih
  | @cursor s op ws r c hs ih =>
    by_cases hfr : falsyS r = true
    · rw [handleCursorMove_eq_no (Or.inl hfr)]
      exact ih
    · have hr : falsyS r = false := by simpa using hfr
      by_cases hhk : hasKeyA s.rooms r = true
      · obtain ⟨room0, hl⟩ := (hasKeyA_true_iff s.rooms r).mp hhk
        cases hu : lookupA room0.clients ws with
        | none =>
          rw [handleCursorMove_eq_nouser hr hl hu]
          exact ih
        | some u =>
          have hrooms : (handleCursorMove s op ws r c).rooms
              = setA s.rooms r
                  { room0 with clients := setA room0.clients ws { u with cursor := c } } := by
            rw [handleCursorMove_eq_yes hr hl hu]
          constructor
          · intro k rm hk
            rw [hrooms] at hk
            by_cases hkr : k = r
            · subst hkr
              rw [lookupA_setA_self] at hk
              have hrm := Option.some.inj hk
              rw [← hrm]
              exact setA_ne_nil _ _ _
            · rw [lookupA_setA_ne _ _ hkr] at hk
              exact ih.1 k rm hk
          · rw [hrooms]
            exact nodup_keys_setA ih.2 _ _
      · have hh2 : hasKeyA s.rooms r = false := by simpa using hhk
        rw [handleCursorMove_eq_no (Or.inr hh2)]
        exact ih
  | @leave s op ws r hs ih =>
    by_cases hfr : falsyS r = true
    · rw [handleLeave_eq_no (Or.inl hfr)]
      exact ih
    · have hr : falsyS r = false := by simpa using hfr
      by_cases hhk : hasKeyA s.rooms r = true
      · obtain ⟨room0, hl⟩ := (hasKeyA_true_iff s.rooms r).mp hhk
        by_cases he : eraseA room0.clients ws = []
        · have hrooms : (handleLeave s op ws r).rooms = eraseA s.rooms r := by
            rw [handleLeave_eq_del hr hl he]
          constructor
          · intro k rm hk
            rw [hrooms] at hk
            by_cases hkr : k = r
            · subst hkr
              rw [lookupA_eraseA_self_of_nodup ih.2] at hk
              exact absurd hk (by simp)
            · rw [lookupA_eraseA_ne _ hkr] at hk
              exact ih.1 k rm hk
          · rw [hrooms]
            exact nodup_keys_eraseA ih.2 _
        · have hrooms : (handleLeave s op ws r).rooms
              = setA s.rooms r { room0 with clients := eraseA room0.clients ws } := by
            rw [handleLeave_eq_stay hr hl he]
          constructor
          · intro k rm hk
            rw [hrooms] at hk
            by_cases hkr : k = r
            · subst hkr
              rw [lookupA_setA_self] at hk
              have hrm := Option.some.inj hk
              rw [← hrm]
              exact he
            · rw [lookupA_setA_ne _ _ hkr] at hk
              exact ih.1 k rm hk
          · rw [hrooms]
            exact nodup_keys_setA ih.2 _ _
      · have hh2 : hasKeyA s.rooms r = false := by simpa using hhk
        rw [handleLeave_eq_no (Or.inr hh2)]
        exact ih

theorem join_leave_roundtrip {st : ServerState} {rr : String}
    (hrr : rr ≠ ("")) (habs : hasKeyA st.rooms (some rr) = false)
    (op op2 : Nat → Bool) (ws : Nat) (un uc : Option String) :
    (handleLeave (handleJoin st op ws (some rr) un uc) op2 ws (some rr)).rooms
      = st.rooms := by
  have hfal : falsyS (some rr) = false := by
    simpa [falsyS] using hrr
  have hnone : lookupA st.rooms (some rr) = none := (hasKeyA_false_iff _ _).mp habs
  have hjrcl : (joinedRoom st ws (some rr) un uc).clients = [(ws, newUser st un uc)] := by
    simp [joinedRoom, baseRoom, hnone, setA]
  have herase : eraseA (joinedRoom st ws (some rr) un uc).clients ws = [] := by
    rw [hjrcl]
    simp [eraseA]
  have hrooms : (handleJoin st op ws (some rr) un uc).rooms
      = st.rooms ++ [(some rr, joinedRoom st ws (some rr) un uc)] := by
    rw [handleJoin_rooms]
    have h1 : (if hasKeyA st.rooms (some rr) then st.rooms
        else setA st.rooms (some rr)
          { code := some (welcomeCode (some rr)), clients := [] })
        = setA st.rooms (some rr)
          { code := some (welcomeCode (some rr)), clients := [] } := by
      simp [habs]
    rw [h1, setA_of_not_has habs, setA_append_of_not_has habs]
  rw [handleLeave_eq_del hfal (handleJoin_lookup_self st op ws (some rr) un uc) herase op2]
  rw [hrooms]
  exact eraseA_append_of_not_has habs _

/-- Claim C2 (amended): in every state reachable by any sequence of the
handler operations, a room id is stored exactly with a non-empty client
map and the registry never holds two entries for one id; and for a
fresh room under a non-falsy id, a join followed by the matching leave
restores the registry, removing the room. The restriction to non-falsy
ids is forced: a room created under the empty-string id (or the
undefined id) can never be left, since handleLeave treats falsy room
ids as a no-op. -/
theorem c2_registry_invariant :
    (∀ s, ReachS s →
      ((∀ k rm, lookupA s.rooms k = some rm → rm.clients ≠ []) ∧
        (s.rooms.map Prod.fst).Nodup)) ∧
    (∀ (st : ServerState) (op op2 : Nat → Bool) (ws : Nat) (un uc : Option String)
      (rr : String), rr ≠ ("") → hasKeyA st.rooms (some rr) = false →
      (handleLeave (handleJoin st op ws (some rr) un uc) op2 ws (some rr)).rooms
        = st.rooms) :=
  ⟨fun _ h => reachS_invariant h,
   fun _ op op2 ws un uc _ h1 h2 => join_leave_roundtrip h1 h2 op op2 ws un uc⟩

/-- Claim C2 counterexample: a join into a fresh room under the
empty-string id followed by the matching leave does not restore the
registry — the room persists, because the leave hits the falsy room id
guard. -/
theorem c2_counterexample :
    ((handleLeave (handleJoin sampleInit allOpen 3 (some ("")) none none)
      allOpen 3 (some (""))).rooms.map Prod.fst = [some ("")])
    ∧ sampleInit.rooms.map Prod.fst = ([] : List (Option String)) := by decide

/-- Claim C2 witness: the invariant applied to a start state, and the
round trip applied to a concrete fresh room. -/
theorem c2_witness :
    ((sampleInit.rooms.map Prod.fst).Nodup) ∧
    (handleLeave (handleJoin sampleInit allOpen 7 (some ("w")) none none)
      allOpen 7 (some ("w"))).rooms = sampleInit.rooms := by
  constructor
  · exact (c2_registry_invariant.1 sampleInit
      (ReachS.start (fun _ => ("u1")) (fun _ => 0))).2
  · exact c2_registry_invariant.2 sampleInit allOpen allOpen 7 none none ("w")
      (by decide) (by decide)

theorem handleCodeChange_keeps_member (st : ServerState) (op : Nat → Bool) (ws : Nat)
    (r c : Option String) {rr2 : Option String} {room : Room} {ws2 : Nat}
    (hroom : lookupA st.rooms rr2 = some room)
    (hmem : hasKeyA room.clients ws2 = true) :
    ∃ room2, lookupA (handleCodeChange st op ws r c).rooms rr2 = some room2 ∧
      hasKeyA room2.clients ws2 = true := by
  by_cases hfr : falsyS r = true
  · rw [handleCodeChange_eq_no (Or.inl hfr)]
    exact ⟨room, hroom, hmem⟩
  · have hr : falsyS r = false := by simpa using hfr
    by_cases hhk : hasKeyA st.rooms r = true
    · obtain ⟨room0, hl⟩ := (hasKeyA_true_iff st.rooms r).mp hhk
      have hrooms : (handleCodeChange st op ws r c).rooms
          = setA st.rooms r { room0 with code := c } := by
        rw [handleCodeChange_eq_yes hr hl]
      by_cases hrr : rr2 = r
      · subst hrr
        have hr0 : room = room0 := by
          rw [hroom] at hl
          exact Option.some.inj hl
        subst hr0
        exact ⟨{ room with code := c }, by rw [hrooms, lookupA_setA_self], hmem⟩
      · rw [hrooms, lookupA_setA_ne _ _ hrr]
        exact ⟨room, hroom, hmem⟩
    · have hh2 : hasKeyA st.rooms r = false := by simpa using hhk
      rw [handleCodeChange_eq_no (Or.inr hh2)]
      exact ⟨room, hroom, hmem⟩

theorem handleCursorMove_keeps_member (st : ServerState) (op : Nat → Bool) (ws : Nat)
    (r : Option String) (c : CursorVal) {rr2 : Option String} {room : Room} {ws2 : Nat}
    (hroom : lookupA st.rooms rr2 = some room)
    (hmem : hasKeyA room.clients ws2 = true) :
    ∃ room2, lookupA (handleCursorMove st op ws r c).rooms rr2 = some room2 ∧
      hasKeyA room2.clients ws2 = true := by
  by_cases hfr : falsyS r = true
  · rw [handleCursorMove_eq_no (Or.inl hfr)]
    exact ⟨room, hroom, hmem⟩
  · have hr : falsyS r = false := by simpa using hfr
    by_cases hhk : hasKeyA st.rooms r = true
    · obtain ⟨room0, hl⟩ := (hasKeyA_true_iff st.rooms r).mp hhk
      cases hu : lookupA room0.clients ws with
      | none =>
        rw [handleCursorMove_eq_nouser hr hl hu]
        exact ⟨room, hroom, hmem⟩
      | some u0 =>
        have hrooms : (handleCursorMove st op ws r c).rooms
            = setA st.rooms r
                { room0 with clients := setA room0.clients ws { u0 with cursor := c } } := by
          rw [handleCursorMove_eq_yes hr hl hu]
        by_cases hrr : rr2 = r
        · subst hrr
          have hr0 : room = room0 := by
            rw [hroom] at hl
            exact Option.some.inj hl
          subst hr0
          refine ⟨_, by rw [hrooms, lookupA_setA_self], ?_⟩
          by_cases hw2 : ws2 = ws
          · subst hw2
            simp [hasKeyA, lookupA_setA_self]
          · simp only [hasKeyA]
            rw [lookupA_setA_ne _ _ hw2]
            simpa [hasKeyA] using hmem
        · rw [hrooms, lookupA_setA_ne _ _ hrr]
          exact ⟨room, hroom, hmem⟩
    · have hh2 : hasKeyA st.rooms r = false := by simpa using hhk
      rw [handleCursorMove_eq_no (Or.inr hh2)]
      exact ⟨room, hroom, hmem⟩

theorem handleLeave_keeps_member (st : ServerState) (op : Nat → Bool) {ws ws2 : Nat}
    (cur : Option String) {rr2 : Option String} {room : Room}
    (hw2 : ws2 ≠ ws) (hroom : lookupA st.rooms rr2 = some room)
    (hmem : hasKeyA room.clients ws2 = true) :
    ∃ room2, lookupA (handleLeave st op ws cur).rooms rr2 = some room2 ∧
      hasKeyA room2.clients ws2 = true := by
  by_cases hfr : falsyS cur = true
  · rw [handleLeave_eq_no (Or.inl hfr)]
    exact ⟨room, hroom, hmem⟩
  · have hr : falsyS cur = false := by simpa using hfr
    by_cases hhk : hasKeyA st.rooms cur = true
    · obtain ⟨room0, hl⟩ := (hasKeyA_true_iff st.rooms cur).mp hhk
      by_cases he : eraseA room0.clients ws = []
      · have hrooms : (handleLeave st op ws cur).rooms = eraseA st.rooms cur := by
          rw [handleLeave_eq_del hr hl he]
        by_cases hrr : rr2 = cur
        · subst hrr
          have hr0 : room = room0 := by
            rw [hroom] at hl
            exact Option.some.inj hl
          subst hr0
          have h1 : lookupA (eraseA room.clients ws) ws2 = lookupA room.clients ws2 :=
            lookupA_eraseA_ne _ hw2
          rw [he] at h1
          have h2 : lookupA room.clients ws2 = none := by
            simpa [lookupA] using h1.symm
          simp [hasKeyA, h2] at hmem
        · rw [hrooms, lookupA_eraseA_ne _ hrr]
          exact ⟨room, hroom, hmem⟩
      · have hrooms : (handleLeave st op ws cur).rooms
            = setA st.rooms cur { room0 with clients := eraseA room0.clients ws } := by
          rw [handleLeave_eq_stay hr hl he]
        by_cases hrr : rr2 = cur
        · subst hrr
          have hr0 : room = room0 := by
            rw [hroom] at hl
            exact Option.some.inj hl
          subst hr0
          refine ⟨_, by rw [hrooms, lookupA_setA_self], ?_⟩
          simp only [hasKeyA]
          rw [lookupA_eraseA_ne _ hw2]
          simpa [hasKeyA] using hmem
        · rw [hrooms, lookupA_setA_ne _ _ hrr]
          exact ⟨room, hroom, hmem⟩
    · have hh2 : hasKeyA st.rooms cur = false := by simpa using hhk
      rw [handleLeave_eq_no (Or.inr hh2)]
      exact ⟨room, hroom, hmem⟩

theorem handleJoin_keeps_member (st : ServerState) (op : Nat → Bool) {ws ws2 : Nat}
    (r un uc : Option String) {rr2 : Option String} {room : Room}
    (hw2 : ws2 ≠ ws) (hroom : lookupA st.rooms rr2 = some room)
    (hmem : hasKeyA room.clients ws2 = true) :
    ∃ room2, lookupA (handleJoin st op ws r un uc).rooms rr2 = some room2 ∧
      hasKeyA room2.clients ws2 = true := by
  by_cases hrr : rr2 = r
  · subst hrr
    refine ⟨joinedRoom st ws rr2 un uc, handleJoin_lookup_self st op ws rr2 un uc, ?_⟩
    simp only [joinedRoom, hasKeyA]
    rw [lookupA_setA_ne _ _ hw2]
    have hbase : baseRoom st rr2 = room := by
      simp [baseRoom, hroom]
    rw [hbase]
    simpa [hasKeyA] using hmem
  · rw [handleJoin_lookup_ne st op ws un uc hrr]
    exact ⟨room, hroom, hmem⟩

theorem handleJoin_nodup_clients (st : ServerState) (op : Nat → Bool) (ws : Nat)
    (r un uc : Option String)
    (hD : ∀ p, p ∈ st.rooms → ((p.2.clients.map Prod.fst)).Nodup) :
    ∀ p, p ∈ (handleJoin st op ws r un uc).rooms → ((p.2.clients.map Prod.fst)).Nodup := by
  intro p hp
  rw [handleJoin_rooms] at hp
  rcases mem_setA hp with h1 | h1
  · by_cases hk : hasKeyA st.rooms r = true
    · simp only [hk, if_true] at h1
      exact hD p h1
    · have hk2 : hasKeyA st.rooms r = false := by simpa using hk
      simp only [hk2, Bool.false_eq_true, if_false] at h1
      rcases mem_setA h1 with h2 | h2
      · exact hD p h2
      · rw [h2]
        simp
  · rw [h1]
    show (((joinedRoom st ws r un uc).clients).map Prod.fst).Nodup
    simp only [joinedRoom]
    apply nodup_keys_setA
    cases hb : lookupA st.rooms r with
    | some rm =>
      simp only [baseRoom, hb]
      exact hD (r, rm) (mem_of_lookupA hb)
    | none => simp [baseRoom, hb]

theorem handleCodeChange_nodup_clients (st : ServerState) (op : Nat → Bool) (ws : Nat)
    (r c : Option String)
    (hD : ∀ p, p ∈ st.rooms → ((p.2.clients.map Prod.fst)).Nodup) :
    ∀ p, p ∈ (handleCodeChange st op ws r c).rooms →
      ((p.2.clients.map Prod.fst)).Nodup := by
  intro p hp
  by_cases hfr : falsyS r = true
  · rw [handleCodeChange_eq_no (Or.inl hfr)] at hp
    exact hD p hp
  · have hr : falsyS r = false := by simpa using hfr
    by_cases hhk : hasKeyA st.rooms r = true
    · obtain ⟨room0, hl⟩ := (hasKeyA_true_iff st.rooms r).mp hhk
      have hrooms : (handleCodeChange st op ws r c).rooms
          = setA st.rooms r { room0 with code := c } := by
        rw [handleCodeChange_eq_yes hr hl]
      rw [hrooms] at hp
      rcases mem_setA hp with h1 | h1
      · exact hD p h1
      · rw [h1]
        exact hD (r, room0) (mem_of_lookupA hl)
    · have hh2 : hasKeyA st.rooms r = false := by simpa using hhk
      rw [handleCodeChange_eq_no (Or.inr hh2)] at hp
      exact hD p hp

theorem handleCursorMove_nodup_clients (st : ServerState) (op : Nat → Bool) (ws : Nat)
    (r : Option String) (c : CursorVal)
    (hD : ∀ p, p ∈ st.rooms → ((p.2.clients.map Prod.fst)).Nodup) :
    ∀ p, p ∈ (handleCursorMove st op ws r c).rooms →
      ((p.2.clients.map Prod.fst)).Nodup := by
  intro p hp
  by_cases hfr : falsyS r = true
  · rw [handleCursorMove_eq_no (Or.inl hfr)] at hp
    exact hD p hp
  · have hr : falsyS r = false := by simpa using hfr
    by_cases hhk : hasKeyA st.rooms r = true
    · obtain ⟨room0, hl⟩ := (hasKeyA_true_iff st.rooms r).mp hhk
      cases hu : lookupA room0.clients ws with
      | none =>
        rw [handleCursorMove_eq_nouser hr hl hu] at hp
        exact hD p hp
      | some u0 =>
        have hrooms : (handleCursorMove st op ws r c).rooms
            = setA st.rooms r
                { room0 with clients := setA room0.clients ws { u0 with cursor := c } } := by
          rw [handleCursorMove_eq_yes hr hl hu]
        rw [hrooms] at hp
        rcases mem_setA hp with h1 | h1
        · exact hD p h1
        · rw [h1]
          exact nodup_keys_setA (hD (r, room0) (mem_of_lookupA hl)) _ _
    · have hh2 : hasKeyA st.rooms r = false := by simpa using hhk
      rw [handleCursorMove_eq_no (Or.inr hh2)] at hp
      exact hD p hp

theorem handleLeave_nodup_clients (st : ServerState) (op : Nat → Bool) (ws : Nat)
    (cur : Option String)
    (hD : ∀ p, p ∈ st.rooms → ((p.2.clients.map Prod.fst)).Nodup) :
    ∀ p, p ∈ (handleLeave st op ws cur).rooms → ((p.2.clients.map Prod.fst)).Nodup := by
  intro p hp
  by_cases hfr : falsyS cur = true
  · rw [handleLeave_eq_no (Or.inl hfr)] at hp
    exact hD p hp
  · have hr : falsyS cur = false := by simpa using hfr
    by_cases hhk : hasKeyA st.rooms cur = true
    · obtain ⟨room0, hl⟩ := (hasKeyA_true_iff st.rooms cur).mp hhk
      by_cases he : eraseA room0.clients ws = []
      · have hrooms : (handleLeave st op ws cur).rooms = eraseA st.rooms cur := by
          rw [handleLeave_eq_del hr hl he]
        rw [hrooms] at hp
        exact hD p ((eraseA_sublist _ _).subset hp)
      · have hrooms : (handleLeave st op ws cur).rooms
            = setA st.rooms cur { room0 with clients := eraseA room0.clients ws } := by
          rw [handleLeave_eq_stay hr hl he]
        rw [hrooms] at hp
        rcases mem_setA hp with h1 | h1
        · exact hD p h1
        · rw [h1]
          exact nodup_keys_eraseA (hD (cur, room0) (mem_of_lookupA hl)) _
    · have hh2 : hasKeyA st.rooms cur = false := by simpa using hhk
      rw [handleLeave_eq_no (Or.inr hh2)] at hp
      exact hD p hp

theorem reachW_invariant {w : World} (h : ReachW w) :
    (∀ ws rr, lookupA w.conns ws = some (some rr) →
      ∃ room, lookupA w.server.rooms (some rr) = some room ∧
        hasKeyA room.clients ws = true) ∧
    (∀ p, p ∈ w.conns → p.1 < w.nextWs) ∧
    ((w.conns.map Prod.fst).Nodup) ∧
    (∀ p, p ∈ w.server.rooms → ((p.2.clients.map Prod.fst)).Nodup) := by
  induction h with
  | start idS cS =>
    refine ⟨?_, ?_, ?_, ?_⟩
    · intro ws rr hws
      simp [initWorld, lookupA] at hws
    · intro p hp
      simp [initWorld] at hp
    · simp [initWorld]
    · intro p hp
      simp [initWorld, initState] at hp
  | @step w wsOpen a hw ih =>
    obtain ⟨ihA, ihB, ihC, ihD⟩ := ih
    cases a with
    | connect =>
      have hfresh : hasKeyA w.conns w.nextWs = false := by
        cases hk : hasKeyA w.conns w.nextWs with
        | false => rfl
        | true =>
          obtain ⟨v, hv⟩ := (hasKeyA_true_iff _ _).mp hk
          have hlt := ihB (w.nextWs, v) (mem_of_lookupA hv)
          exact absurd hlt (by simp)
      refine ⟨?_, ?_, ?_, ?_⟩
      · intro ws rr hws
        replace hws : lookupA (w.conns ++ [(w.nextWs, (none : Option String))]) ws
            = some (some rr) := hws
        rw [lookupA_append] at hws
        cases hcw : lookupA w.conns ws with
        | some v =>
          rw [hcw] at hws
          simp only [Option.some.injEq] at hws
          subst hws
          exact ihA ws rr hcw
        | none =>
          rw [hcw] at hws
          simp only [lookupA] at hws
          split at hws <;> simp_all
      · intro p hp
        replace hp : p ∈ w.conns ++ [(w.nextWs, (none : Option String))] := hp
        rcases List.mem_append.mp hp with h1 | h1
        · exact Nat.lt_succ_of_lt (ihB p h1)
        · simp only [List.mem_singleton] at h1
          rw [h1]
          exact Nat.lt_succ_self _
      · show ((w.conns ++ [(w.nextWs, (none : Option String))]).map Prod.fst).Nodup
        rw [← setA_of_not_has hfresh (none : Option String)]
        exact nodup_keys_setA ihC _ _
      · intro p hp
        exact ihD p hp
    | msgJoin ws r un uc =>
      by_cases hg : hasKeyA w.conns ws = true
      · have hstep : stepWorld w wsOpen (Act.msgJoin ws r un uc)
            = { w with server := handleJoin w.server wsOpen ws r un uc,
                       conns := setA w.conns ws r } := by
          simp [stepWorld, hg]
        rw [hstep]
        refine ⟨?_, ?_, ?_, ?_⟩
        · intro ws2 rr2 hws2
          replace hws2 : lookupA (setA w.conns ws r) ws2 = some (some rr2) := hws2
          rw [lookupA_setA] at hws2
          by_cases hw2 : ws2 = ws
          · rw [if_pos hw2] at hws2
            have hr2 : r = some rr2 := Option.some.inj hws2
            subst hr2
            rw [hw2]
            exact ⟨joinedRoom w.server ws (some rr2) un uc,
              handleJoin_lookup_self w.server wsOpen ws (some rr2) un uc,
              by simp [joinedRoom, hasKeyA, lookupA_setA_self]⟩
          · rw [if_neg hw2] at hws2
            obtain ⟨room, hroom, hmem⟩ := ihA ws2 rr2 hws2
            exact handleJoin_keeps_member w.server wsOpen r un uc hw2 hroom hmem
        · intro p hp
          replace hp : p ∈ setA w.conns ws r := hp
          obtain ⟨v, hv⟩ := (hasKeyA_true_iff _ _).mp hg
          rcases mem_setA hp with h1 | h1
          · exact ihB p h1
          · rw [h1]
            exact ihB (ws, v) (mem_of_lookupA hv)
        · show ((setA w.conns ws r).map Prod.fst).Nodup
          exact nodup_keys_setA ihC _ _
        · intro p hp
          exact handleJoin_nodup_clients w.server wsOpen ws r un uc ihD p hp
      · have hg2 : hasKeyA w.conns ws = false := by simpa using hg
        have hstep : stepWorld w wsOpen (Act.msgJoin ws r un uc) = w := by
          simp [stepWorld, hg2]
        rw [hstep]
        exact ⟨ihA, ihB, ihC, ihD⟩
    | msgCode ws c =>
      cases hcw : lookupA w.conns ws with
      | none =>
        have hstep : stepWorld w wsOpen (Act.msgCode ws c) = w := by
          simp [stepWorld, hcw]
        rw [hstep]
        exact ⟨ihA, ihB, ihC, ihD⟩
      | some cur =>
        have hstep : stepWorld w wsOpen (Act.msgCode ws c)
            = { w with server := handleCodeChange w.server wsOpen ws cur c } := by
          simp [stepWorld, hcw]
        rw [hstep]
        refine ⟨?_, ?_, ?_, ?_⟩
        · intro ws2 rr2 hws2
          replace hws2 : lookupA w.conns ws2 = some (some rr2) := hws2
          obtain ⟨room, hroom, hmem⟩ := ihA ws2 rr2 hws2
          exact handleCodeChange_keeps_member w.server wsOpen ws cur c hroom hmem
        · intro p hp
          exact ihB p hp
        · exact ihC
        · intro p hp
          exact handleCodeChange_nodup_clients w.server wsOpen ws cur c ihD p hp
    | msgCursor ws c =>
      cases hcw : lookupA w.conns ws with
      | none =>
        have hstep : stepWorld w wsOpen (Act.msgCursor ws c) = w := by
          simp [stepWorld, hcw]
        rw [hstep]
        exact ⟨ihA, ihB, ihC, ihD⟩
      | some cur =>
        have hstep : stepWorld w wsOpen (Act.msgCursor ws c)
            = { w with server := handleCursorMove w.server wsOpen ws cur c } := by
          simp [stepWorld, hcw]
        rw [hstep]
        refine ⟨?_, ?_, ?_, ?_⟩
        · intro ws2 rr2 hws2
          replace hws2 : lookupA w.conns ws2 = some (some rr2) := hws2
          obtain ⟨room, hroom, hmem⟩ := ihA ws2 rr2 hws2
          exact handleCursorMove_keeps_member w.server wsOpen ws cur c hroom hmem
        · intro p hp
          exact ihB p hp
        · exact ihC
        · intro p hp
          exact handleCursorMove_nodup_clients w.server wsOpen ws cur c ihD p hp
    | msgLeave ws =>
      cases hcw : lookupA w.conns ws with
      | none =>
        have hstep : stepWorld w wsOpen (Act.msgLeave ws) = w := by
          simp [stepWorld, hcw]
        rw [hstep]
        exact ⟨ihA, ihB, ihC, ihD⟩
      | some cur =>
        have hstep : stepWorld w wsOpen (Act.msgLeave ws)
            = { w with server := handleLeave w.server wsOpen ws cur,
                       conns := setA w.conns ws none } := by
          simp [stepWorld, hcw]
        rw [hstep]
        refine ⟨?_, ?_, ?_, ?_⟩
        · intro ws2 rr2 hws2
          replace hws2 : lookupA (setA w.conns ws (none : Option String)) ws2
              = some (some rr2) := hws2
          rw [lookupA_setA] at hws2
          by_cases hw2 : ws2 = ws
          · rw [if_pos hw2] at hws2
            simp at hws2
          · rw [if_neg hw2] at hws2
            obtain ⟨room, hroom, hmem⟩ := ihA ws2 rr2 hws2
            exact handleLeave_keeps_member w.server wsOpen cur hw2 hroom hmem
        · intro p hp
          replace hp : p ∈ setA w.conns ws (none : Option String) := hp
          rcases mem_setA hp with h1 | h1
          · exact ihB p h1
          · rw [h1]
            exact ihB (ws, cur) (mem_of_lookupA hcw)
        · show ((setA w.conns ws (none : Option String)).map Prod.fst).Nodup
          exact nodup_keys_setA ihC _ _
        · intro p hp
          exact handleLeave_nodup_clients w.server wsOpen ws cur ihD p hp
    | malformedFrame ws =>
      exact ⟨ihA, ihB, ihC, ihD⟩
    | unknownKind ws =>
      exact ⟨ihA, ihB, ihC, ihD⟩
    | disconnect ws =>
      cases hcw : lookupA w.conns ws with
      | none =>
        have hstep : stepWorld w wsOpen (Act.disconnect ws) = w := by
          simp [stepWorld, hcw]
        rw [hstep]
        exact ⟨ihA, ihB, ihC, ihD⟩
      | some cur =>
        by_cases hfc : falsyS cur = true
        · have hstep : stepWorld w wsOpen (Act.disconnect ws)
              = { w with conns := eraseA w.conns ws } := by
            simp [stepWorld, hcw, hfc]
          rw [hstep]
          refine ⟨?_, ?_, ?_, ?_⟩
          · intro ws2 rr2 hws2
            replace hws2 : lookupA (eraseA w.conns ws) ws2 = some (some rr2) := hws2
            by_cases hw2 : ws2 = ws
            · subst hw2
              rw [lookupA_eraseA_self_of_nodup ihC] at hws2
              simp at hws2
            · rw [lookupA_eraseA_ne _ hw2] at hws2
              exact ihA ws2 rr2 hws2
          · intro p hp
            exact ihB p ((eraseA_sublist _ _).subset hp)
          · show ((eraseA w.conns ws).map Prod.fst).Nodup
            exact nodup_keys_eraseA ihC _
          · intro p hp
            exact ihD p hp
        · have hfc2 : falsyS cur = false := by simpa using hfc
          have hstep : stepWorld w wsOpen (Act.disconnect ws)
              = { w with server := handleLeave w.server wsOpen ws cur,
                         conns := eraseA w.conns ws } := by
            simp [stepWorld, hcw, hfc2]
          rw [hstep]
          refine ⟨?_, ?_, ?_, ?_⟩
          · intro ws2 rr2 hws2
            replace hws2 : lookupA (eraseA w.conns ws) ws2 = some (some rr2) := hws2
            by_cases hw2 : ws2 = ws
            · subst hw2
              rw [lookupA_eraseA_self_of_nodup ihC] at hws2
              simp at hws2
            · rw [lookupA_eraseA_ne _ hw2] at hws2
              obtain ⟨room, hroom, hmem⟩ := ihA ws2 rr2 hws2
              exact handleLeave_keeps_member w.server wsOpen cur hw2 hroom hmem
          · intro p hp
            exact ihB p ((eraseA_sublist _ _).subset hp)
          · show ((eraseA w.conns ws).map Prod.fst).Nodup
            exact nodup_keys_eraseA ihC _
          · intro p hp
            exact handleLeave_nodup_clients w.server wsOpen ws cur ihD p hp

/-- Claim C5 counterexample: a connection that joins room a and then
room b without leaving is still recorded as a participant of room a
while its current room is b — a room other than the current one retains
a participant record for the session, refuting the claimed at most one
room association. -/
theorem c5_counterexample :
    ((lookupA sampleWorld2.server.rooms (some ("a"))).map
      (fun rm => hasKeyA rm.clients 0) = some true)
    ∧ lookupA sampleWorld2.conns 0 = some (some ("b"))
    ∧ (some ("a") : Option String) ≠ some ("b") := by decide

/-- Claim C5 (amended): in every reachable process state, a session
whose current room is set is a member of that room (which exists in the
registry), and every room holds at most one participant record per
session; but a session may additionally retain participant records in
rooms it joined earlier and never left, since joining a new room does
not remove the record held in the previous one. -/
theorem c5_session_room_invariant :
    ∀ w, ReachW w →
      ((∀ ws rr, lookupA w.conns ws = some (some rr) →
        ∃ room, lookupA w.server.rooms (some rr) = some room ∧
          hasKeyA room.clients ws = true) ∧
      (∀ k room, lookupA w.server.rooms k = some room →
        ((room.clients.map Prod.fst)).Nodup)) :=
  fun _ h =>
    ⟨(reachW_invariant h).1,
     fun k room hk => (reachW_invariant h).2.2.2 (k, room) (mem_of_lookupA hk)⟩

/-- Claim C5 witness: in the concrete double-join run, the current room
b of connection 0 indeed exists and holds its record. -/
theorem c5_witness :
    (lookupA sampleWorld2.server.rooms (some ("b"))).map
      (fun rm => hasKeyA rm.clients 0) = some true := by
  obtain ⟨room, h1, h2⟩ :=
    (c5_session_room_invariant sampleWorld2
      (ReachW.step allOpen (Act.msgJoin 0 (some ("b")) none none)
        (ReachW.step allOpen (Act.msgJoin 0 (some ("a")) none none)
          (ReachW.step allOpen Act.connect
            (ReachW.start (fun _ => ("u1")) (fun _ => 0)))))).1
    0 ("b") (by decide)
  rw [h1]
  simp [h2]

/-- Claim C6 counterexample: an inbound join envelope missing its
roomId field (a required field of its kind) is not dropped: dispatched
on a live connection it runs the join handler, creating a room stored
under the undefined key and sending an init envelope. -/
theorem c6_counterexample :
    (hasKeyA (stepWorld (stepWorld (initWorld (fun _ => ("u1")) (fun _ => 0)) allOpen
        Act.connect) allOpen (Act.msgJoin 0 none none none)).server.rooms none = true)
    ∧ (stepWorld (stepWorld (initWorld (fun _ => ("u1")) (fun _ => 0)) allOpen
        Act.connect) allOpen (Act.msgJoin 0 none none none)).server.sent.length = 1 := by
  decide

/-- Claim C6 (amended): only a frame that fails JSON decoding, or an
envelope of unknown kind, is dropped with no state change and the
connection kept; a decodable envelope is dispatched with no structural
field validation — a join whose roomId is missing still registers,
leaving a room stored under the undefined key and emitting init, and a
code-change whose code field is missing overwrites the document with
the undefined value. -/
theorem c6_parse_error_only_dropped (w : World) (op : Nat → Bool) (ws : Nat)
    (un uc : Option String) (st : ServerState) (r : Option String) (room0 : Room) :
    (stepWorld w op (Act.malformedFrame ws) = w) ∧
    (stepWorld w op (Act.unknownKind ws) = w) ∧
    (hasKeyA w.conns ws = true →
      hasKeyA (stepWorld w op (Act.msgJoin ws none un uc)).server.rooms none = true ∧
      sentNew w.server (stepWorld w op (Act.msgJoin ws none un uc)).server ≠ []) ∧
    (falsyS r = false → lookupA st.rooms r = some room0 →
      (lookupA (handleCodeChange st op ws r none).rooms r).map (fun rm => rm.code)
        = some none) := by
  refine ⟨rfl, rfl, ?_, ?_⟩
  · intro hg
    have hs : (stepWorld w op (Act.msgJoin ws none un uc)).server
        = handleJoin w.server op ws none un uc := by
      simp [stepWorld, hg]
    rw [hs]
    constructor
    · simp [hasKeyA, handleJoin_lookup_self w.server op ws none un uc]
    · rw [handleJoin_sentNew]
      simp
  · intro hr hl
    rw [handleCodeChange_eq_yes hr hl]
    simp [lookupA_setA_self]

/-- Claim C6 witness: a malformed frame leaves a concrete start state
unchanged; a concrete join with no roomId creates the undefined-keyed
room; a concrete code-change with no code field stores the undefined
document. -/
theorem c6_witness :
    (stepWorld (initWorld (fun _ => ("u1")) (fun _ => 0)) allOpen
        (Act.malformedFrame 0) = initWorld (fun _ => ("u1")) (fun _ => 0)) ∧
    (hasKeyA (stepWorld (stepWorld (initWorld (fun _ => ("u1")) (fun _ => 0)) allOpen
        Act.connect) allOpen (Act.msgJoin 0 none none none)).server.rooms none = true) ∧
    ((lookupA (handleCodeChange (handleJoin sampleInit allOpen 1 (some ("r")) none none)
        allOpen 1 (some ("r")) none).rooms (some ("r"))).map (fun rm => rm.code)
      = some none) := by
  refine ⟨?_, ?_, ?_⟩
  · exact (c6_parse_error_only_dropped (initWorld (fun _ => ("u1")) (fun _ => 0)) allOpen
      0 none none sampleInit (some ("r"))
      (joinedRoom sampleInit 1 (some ("r")) none none)).1
  · exact ((c6_parse_error_only_dropped
      (stepWorld (initWorld (fun _ => ("u1")) (fun _ => 0)) allOpen Act.connect) allOpen
      0 none none sampleInit (some ("r"))
      (joinedRoom sampleInit 1 (some ("r")) none none)).2.2.1 (by decide)).1
  · exact (c6_parse_error_only_dropped (initWorld (fun _ => ("u1")) (fun _ => 0)) allOpen
      1 none none (handleJoin sampleInit allOpen 1 (some ("r")) none none) (some ("r"))
      (joinedRoom sampleInit 1 (some ("r")) none none)).2.2.2 (by decide)
      (handleJoin_lookup_self sampleInit allOpen 1 (some ("r")) none none)

end Collab
